import Mathlib

/-!
Shallow embedding of the SylAgent memory subsystem (MemoryService and
ReflectionService) and verification of its specification.

Conventions of the embedding:
* JavaScript numbers are modelled as real numbers (`ℝ`); `Date` values are
  modelled as their epoch-millisecond value, also a real number.
* The persistent store (Prisma tables `memoryBucket`, `memoryChunk`,
  `memoryLink`) is modelled as a `Store` record holding lists of rows, in
  insertion order.  Every stateful operation takes the store and the current
  time and returns the value together with the updated store.
* Fallible operations (the service methods that `throw`) return `Except`.
* `Array.prototype.sort cmp` (a stable comparison sort) is modelled by
  `List.insertionSort` with the relation `cmp a b ≤ 0`, which is a stable
  sort placing `a` before `b` exactly when the comparator allows it.
* `Math.pow` on real arguments is `Real.rpow`; division by zero follows the
  Lean convention `x / 0 = 0` in readings where no zero denominator is
  reachable.  Where a zero denominator IS reachable in the source — the mean
  score of `calculateConfidenceScore` at an empty memory list — the
  JavaScript special values are modelled explicitly by `JsNumber`
  (`0 / 0 = NaN`, propagated through `Math.min`, `*`, `+`).
-/

open scoped Classical

namespace SylAgent

/-- Bucket type tags, from `types.ts` (`MemoryBucketType`). -/
inductive BucketType
  | STM | LTM | RL | DOCS | MISC
deriving DecidableEq

/-- A row of the `memoryBucket` table. -/
structure MemoryBucket where
  id : String
  name : String
  description : String
  bucketType : BucketType
deriving DecidableEq

/-- A row of the `memoryChunk` table (`MemoryChunk` in `types.ts`).  The
`similarity` field models the optional `similarity` property attached to the
plain objects returned by retrieval (`undefined`, i.e. `none`, on stored
rows). -/
structure MemoryChunk where
  id : String
  bucketId : String
  text : String
  embedding : List ℝ
  metaVector : List ℝ
  score : ℝ
  timestamp : ℝ
  lastAccessed : ℝ
  source : String
  agentId : Option String
  metadata : List (String × String)
  accessCount : ℕ
  decayRate : ℝ
  similarity : Option ℝ

/-- Link types, from `types.ts` (`MemoryLink.linkType`). -/
inductive LinkType
  | semantic | causal | temporal | associative
deriving DecidableEq

/-- A row of the `memoryLink` table.  Strengths written by this code base are
rational (the default `1.0` or a Jaccard similarity), so `strength : ℚ`. -/
structure MemoryLink where
  id : String
  sourceId : String
  targetId : String
  strength : ℚ
  linkType : LinkType
  createdAt : ℝ

/-- The persistent store backing the services. -/
structure Store where
  buckets : List MemoryBucket
  chunks : List MemoryChunk
  links : List MemoryLink

/-- Errors thrown by the memory service (`throw new Error(...)`). -/
inductive MemError
  | notFound (message : String)
deriving DecidableEq

/-- Stable comparator sort: JavaScript `arr.sort(cmp)` places `a` before `b`
exactly when `cmp a b ≤ 0`. -/
noncomputable def jsSortCmp {α : Type} (cmp : α → α → ℝ) (l : List α) : List α :=
  List.insertionSort (fun a b => cmp a b ≤ 0) l

namespace MemoryService

/-- `MEMORY_DECAY_RATES.STM` from `types.ts`. -/
noncomputable def MEMORY_DECAY_RATE_STM : ℝ := 0.990

/-- `MEMORY_DECAY_RATES.LTM` from `types.ts`. -/
noncomputable def MEMORY_DECAY_RATE_LTM : ℝ := 0.999

/-- `MEMORY_DECAY_RATES.RL` from `types.ts`. -/
noncomputable def MEMORY_DECAY_RATE_RL : ℝ := 0.995

/-- `MEMORY_BUCKET_NAMES` from `types.ts`. -/
def MEMORY_BUCKET_NAMES : List String :=
  ["semantic_stm", "semantic_ltm", "procedural_stm", "procedural_ltm",
   "episodic_stm", "episodic_ltm", "diary_rl", "calendar_rl",
   "api_docs", "odds_ends"]

/-- `prisma.memoryBucket.findUnique({ where: { name } })`. -/
def findBucket (st : Store) (name : String) : Option MemoryBucket :=
  st.buckets.find? (fun b => b.name == name)

/-- Decay-rate selection in `addMemoryChunk` (the chained ternary on the
bucket type: `STM` and `LTM` get their own rates, every other type falls
through to the `RL` rate). -/
noncomputable def decayRateFor (t : BucketType) : ℝ :=
  match t with
  | .STM => MEMORY_DECAY_RATE_STM
  | .LTM => MEMORY_DECAY_RATE_LTM
  | _ => MEMORY_DECAY_RATE_RL

/-- Modelled from the spec: the Prisma schema (code of this repository that is
not under `src/`) supplies the creation defaults of a `memoryChunk` row.  Per
spec section 4.1, `addChunk` "Returns the created chunk with `score = 1.0`,
`accessCount = 0`, `lastAccessed = now`", and section 3 gives the creation
timestamp; all remaining fields are the explicitly passed data. -/
noncomputable def createdChunk (newId bucketId : String) (text : String)
    (embedding metaVector : List ℝ) (source : String) (agentId : Option String)
    (metadata : List (String × String)) (decayRate : ℝ) (now : ℝ) : MemoryChunk :=
  { id := newId, bucketId := bucketId, text := text, embedding := embedding,
    metaVector := metaVector, score := 1.0, timestamp := now,
    lastAccessed := now, source := source, agentId := agentId,
    metadata := metadata, accessCount := 0, decayRate := decayRate,
    similarity := none }

/-- `MemoryService.addMemoryChunk`: looks up the bucket (throwing `NotFound`
for an unknown name), picks the decay rate from the bucket type, and inserts
the created row.  `newId` stands for the id generated by the database. -/
noncomputable def addMemoryChunk (st : Store) (now : ℝ) (bucketName : String) (text : String)
    (embedding metaVector : List ℝ) (source : String) (agentId : Option String)
    (metadata : List (String × String)) (newId : String) :
    Except MemError (MemoryChunk × Store) :=
  match findBucket st bucketName with
  | none => .error (.notFound ("Memory bucket " ++ bucketName ++ " not found"))
  | some bucket =>
    let chunk := createdChunk newId bucket.id text embedding metaVector source
      agentId metadata (decayRateFor bucket.bucketType) now
    .ok (chunk, { st with chunks := st.chunks ++ [chunk] })

/-- Hours elapsed since a chunk's `lastAccessed`
(`(Date.now() - chunk.lastAccessed.getTime()) / (1000 * 60 * 60)`). -/
noncomputable def hoursSinceAccess (now : ℝ) (c : MemoryChunk) : ℝ :=
  (now - c.lastAccessed) / (1000 * 60 * 60)

/-- The decayed score `chunk.score * Math.pow(chunk.decayRate, hoursSinceAccess)`. -/
noncomputable def decayNewScore (now : ℝ) (c : MemoryChunk) : ℝ :=
  c.score * c.decayRate ^ hoursSinceAccess now c

/-- The per-chunk loop of `applyMemoryDecay`, returning the surviving rows
together with the `(processed, decayed, deleted)` counters. -/
noncomputable def decayChunks (now : ℝ) : List MemoryChunk → List MemoryChunk × ℕ × ℕ × ℕ
  | [] => ([], 0, 0, 0)
  | c :: cs =>
    let r := decayChunks now cs
    let ns := decayNewScore now c
    if ns < 0.05 then (r.1, r.2.1 + 1, r.2.2.1, r.2.2.2 + 1)
    else if ns = c.score then (c :: r.1, r.2.1 + 1, r.2.2.1, r.2.2.2)
    else ({ c with score := ns } :: r.1, r.2.1 + 1, r.2.2.1 + 1, r.2.2.2)

/-- `MemoryService.applyMemoryDecay`: full scan of the chunk table; deletes a
chunk when its decayed score falls under `0.05`, otherwise persists the new
score when it changed; returns `(store, processed, decayed, deleted)`. -/
noncomputable def applyMemoryDecay (now : ℝ) (st : Store) : Store × ℕ × ℕ × ℕ :=
  let r := decayChunks now st.chunks
  ({ st with chunks := r.1 }, r.2)

/-- Elementwise-product sum `Σ v[i] * w[i]` over the common prefix; with
equal-length vectors this is the accumulation loop of
`calculateCosineSimilarity` (dot product, and with `v = w` the squared
norm). -/
def sumMul (v w : List ℝ) : ℝ :=
  (List.zipWith (fun x y => x * y) v w).sum

/-- `MemoryService.calculateCosineSimilarity`: `0` on mismatched
dimensionality; after the accumulation loop, `0` when either squared norm is
zero, otherwise `dot / (sqrt norm1 * sqrt norm2)`. -/
noncomputable def calculateCosineSimilarity (vec1 vec2 : List ℝ) : ℝ :=
  if vec1.length ≠ vec2.length then 0
  else
    let dotProduct := sumMul vec1 vec2
    let norm1 := sumMul vec1 vec1
    let norm2 := sumMul vec2 vec2
    if norm1 = 0 ∨ norm2 = 0 then 0
    else dotProduct / (Real.sqrt norm1 * Real.sqrt norm2)

/-- JavaScript `x || d` for an optional number `x`: the fallback `d` is used
when the property is absent (`none`) or its value is `0` (falsy). -/
noncomputable def jsOrReal (x : Option ℝ) (d : ℝ) : ℝ :=
  match x with
  | none => d
  | some s => if s = 0 then d else s

/-- The Prisma query ordering `orderBy: [{score: desc}, {lastAccessed: desc}]`,
modelled as a stable sort by descending score, ties broken by descending
`lastAccessed`. -/
noncomputable def dbSortScoreRecency (l : List MemoryChunk) : List MemoryChunk :=
  List.insertionSort
    (fun a b => b.score < a.score ∨ (b.score = a.score ∧ b.lastAccessed ≤ a.lastAccessed)) l

/-- One `prisma.memoryChunk.update` of the access-tracking pass: set
`lastAccessed` to now and increment `accessCount` on the row with the given
id. -/
def touchChunk (s : Store) (chunkId : String) (now : ℝ) : Store :=
  { s with chunks := s.chunks.map (fun c =>
      if c.id = chunkId then
        { c with lastAccessed := now, accessCount := c.accessCount + 1 }
      else c) }

/-- `MemoryService.getMemoriesFromBucket`: throws `NotFound` for an unknown
bucket; fetches the rows of the bucket with `score ≥ minScore` ordered by
descending score then descending `lastAccessed`, limited to `limit`; when a
non-empty query embedding is supplied, attaches cosine similarity and re-sorts
by `(b.similarity || 0) - (a.similarity || 0)`; finally touches
`lastAccessed`/`accessCount` on every returned row. -/
noncomputable def getMemoriesFromBucket (st : Store) (now : ℝ) (bucketName : String)
    (queryEmbedding : Option (List ℝ)) (limit : ℕ) (minScore : ℝ) :
    Except MemError (List MemoryChunk × Store) :=
  match findBucket st bucketName with
  | none => .error (.notFound ("Memory bucket " ++ bucketName ++ " not found"))
  | some bucket =>
    let fetched := (dbSortScoreRecency (st.chunks.filter
      (fun c => decide (c.bucketId = bucket.id ∧ minScore ≤ c.score)))).take limit
    let results :=
      match queryEmbedding with
      | some q =>
        if 0 < q.length then
          jsSortCmp (fun a b => jsOrReal b.similarity 0 - jsOrReal a.similarity 0)
            (fetched.map (fun c =>
              { c with similarity := some (calculateCosineSimilarity q c.embedding) }))
        else fetched
      | none => fetched
    let st' := results.foldl (fun s c => touchChunk s c.id now) st
    .ok (results, st')

/-- Sequential per-bucket fetch loop shared by `searchMemories` (with a query
embedding) and the reflection engine's gather phase (without one): the
accumulated results of `getMemoriesFromBucket` over the listed buckets,
threading the store through the access-tracking side effects and propagating
the first thrown error. -/
noncomputable def collectFromBuckets (now : ℝ) (q : Option (List ℝ)) (limit : ℕ)
    (minScore : ℝ) : List String → Store → Except MemError (List MemoryChunk × Store)
  | [], st => .ok ([], st)
  | b :: bs, st =>
    match getMemoriesFromBucket st now b q limit minScore with
    | .error e => .error e
    | .ok (res, st') =>
      match collectFromBuckets now q limit minScore bs st' with
      | .error e => .error e
      | .ok (rest, st'') => .ok (res ++ rest, st'')

/-- `MemoryService.searchMemories`: fetch `ceil(limit / bucketCount)` rows per
bucket (all canonical buckets when none are given), then sort the merged
results by `(b.similarity || b.score) - (a.similarity || a.score)` and take
`limit`. -/
noncomputable def searchMemories (st : Store) (now : ℝ) (queryEmbedding : List ℝ)
    (buckets : Option (List String)) (limit : ℕ) :
    Except MemError (List MemoryChunk × Store) :=
  let bucketsToSearch := buckets.getD MEMORY_BUCKET_NAMES
  let perBucket := (limit + bucketsToSearch.length - 1) / bucketsToSearch.length
  match collectFromBuckets now (some queryEmbedding) perBucket 0.1 bucketsToSearch st with
  | .error e => .error e
  | .ok (allResults, st') =>
    .ok ((jsSortCmp (fun a b =>
        jsOrReal b.similarity b.score - jsOrReal a.similarity a.score) allResults).take limit,
      st')

/-- `MemoryService.boostMemory`: `prisma.memoryChunk.update` on the given id
(increment `score` by `boost`, touch `lastAccessed`, increment `accessCount`);
Prisma's `update` throws when no row matches the id. -/
noncomputable def boostMemory (st : Store) (now : ℝ) (chunkId : String) (boost : ℝ) :
    Except MemError Store :=
  if st.chunks.any (fun c => c.id == chunkId) then
    .ok { st with chunks := st.chunks.map (fun c =>
      if c.id = chunkId then
        { c with score := c.score + boost, lastAccessed := now,
                 accessCount := c.accessCount + 1 }
      else c) }
  else .error (.notFound "Record to update not found")

end MemoryService

/-- Character-level lower-casing, modelling `String.prototype.toLowerCase`. -/
def jsToLower (s : String) : String :=
  String.mk (s.data.map Char.toLower)

/-- Worker for `jsSplitWs`: scans the characters, building the current piece
(`some` of its reversed characters) or skipping inside a whitespace run
(`none`); a piece is flushed at the start of each run and a final (possibly
empty) piece is flushed at the end of the string. -/
def jsSplitWsAux : Option (List Char) → List Char → List String
  | piece, [] => [String.mk (piece.getD []).reverse]
  | piece, c :: rest =>
    if c.isWhitespace then
      match piece with
      | some p => String.mk p.reverse :: jsSplitWsAux none rest
      | none => jsSplitWsAux none rest
    else jsSplitWsAux (some (c :: piece.getD [])) rest

/-- JavaScript `str.split(/\s+/)`: the pieces between maximal whitespace runs,
including an empty leading piece when the string starts with whitespace, an
empty trailing piece when it ends with whitespace, and `[""]` for the empty
string. -/
def jsSplitWs (s : String) : List String :=
  jsSplitWsAux (some []) s.data

/-- `a.includes(b)` on JavaScript strings: contiguous-substring containment. -/
def strIncludesAux (needle : List Char) : List Char → Bool
  | [] => needle.isEmpty
  | c :: rest => needle.isPrefixOf (c :: rest) || strIncludesAux needle rest

/-- JavaScript `s.includes(sub)`. -/
def jsIncludes (s sub : String) : Bool :=
  strIncludesAux sub.data s.data

/-- `Math.round` on a rational value: JavaScript rounds half towards positive
infinity. -/
def jsRound (q : ℚ) : ℤ := ⌊q + 1 / 2⌋

/-- One step of the frequency-map `reduce`s: JavaScript objects keep string
keys in insertion order, modelled by an association list with in-place
increment and append-on-first-occurrence. -/
def upsertCount (acc : List (String × ℕ)) (k : String) : List (String × ℕ) :=
  if acc.any (fun p => p.1 == k) then
    acc.map (fun p => if p.1 = k then (p.1, p.2 + 1) else p)
  else acc ++ [(k, 1)]

/-- An all-default chunk, standing for the (never taken) out-of-range array
access in the index-bounded loops. -/
noncomputable def emptyChunk : MemoryChunk :=
  { id := "", bucketId := "", text := "", embedding := [], metaVector := [],
    score := 0, timestamp := 0, lastAccessed := 0, source := "",
    agentId := none, metadata := [], accessCount := 0, decayRate := 0,
    similarity := none }

/-- Reflection depth (`'shallow' | 'medium' | 'deep'`). -/
inductive ReflectionDepth
  | shallow | medium | deep
deriving DecidableEq

/-- `ReflectionRequest` from `types.ts` (the trigger type does not influence
the pipeline and is kept as its raw string). -/
structure ReflectionRequest where
  triggerType : String
  memoryScope : List String
  reflectionDepth : ReflectionDepth
  focusAreas : List String

/-- A candidate connection pushed by `discoverMemoryConnections`.  The
generated id `temp_${Date.now()}_${i}_${j}` is modelled by carrying the index
pair `(sourceIndex, targetIndex)` and the creation time, which together
determine it. -/
structure NewConnection where
  sourceIndex : ℕ
  targetIndex : ℕ
  sourceId : String
  targetId : String
  strength : ℚ
  linkType : LinkType
  createdAt : ℝ

/-- `ReflectionResult` from `types.ts`. -/
structure ReflectionResult where
  insights : List String
  newConnections : List NewConnection
  recommendations : List String
  confidenceScore : ℝ

namespace ReflectionService

/-- The comparator of the gather phase, verbatim from the source:
`(b.score * 0.7 + (now - a.lastAccessed) * 0.3) -
 (a.score * 0.7 + (now - b.lastAccessed) * 0.3)`. -/
noncomputable def gatherCmp (now : ℝ) (a b : MemoryChunk) : ℝ :=
  (b.score * 0.7 + (now - a.lastAccessed) * 0.3) -
    (a.score * 0.7 + (now - b.lastAccessed) * 0.3)

/-- `ReflectionService.gatherMemoriesForReflection`: pull up to 50 chunks from
each bucket in scope (default `minScore = 0.1`, no query embedding), merge,
sort with `gatherCmp` and keep the top 100. -/
noncomputable def gatherMemoriesForReflection (st : Store) (now : ℝ)
    (buckets : List String) : Except MemError (List MemoryChunk × Store) :=
  match MemoryService.collectFromBuckets now none 50 0.1 buckets st with
  | .error e => .error e
  | .ok (allMemories, st') =>
    .ok ((jsSortCmp (gatherCmp now) allMemories).take 100, st')

/-- `ReflectionService.identifyPatterns`: top-3 source frequencies and the
count of chunks with `score > 2.0`. -/
noncomputable def identifyPatterns (memories : List MemoryChunk) : List String :=
  let sourceFrequency := memories.foldl (fun acc m => upsertCount acc m.source) []
  let topSources := (jsSortCmp (fun a b => ((b.2 : ℝ) - (a.2 : ℝ)))
    sourceFrequency).take 3
  (if 0 < topSources.length then
    ["Most active information sources: " ++ String.intercalate ", "
      (topSources.map (fun p => p.1 ++ " (" ++ toString p.2 ++ ")"))]
   else []) ++
  (let highScoreMemories := memories.filter (fun m => decide (2.0 < m.score))
   if 0 < highScoreMemories.length then
     [toString highScoreMemories.length ++
       " memories have been significantly reinforced through repeated access"]
   else [])

/-- `ReflectionService.analyzeTemporalPatterns`: counts of chunks created in
the last 24 hours and the last 7 days. -/
noncomputable def analyzeTemporalPatterns (now : ℝ) (memories : List MemoryChunk) :
    List String :=
  let day : ℝ := 24 * 60 * 60 * 1000
  let week : ℝ := 7 * day
  let recentMemories := memories.filter (fun m => decide (now - m.timestamp < day))
  let weekMemories := memories.filter (fun m => decide (now - m.timestamp < week))
  (if 0 < recentMemories.length then
    [toString recentMemories.length ++ " new memories formed in the last 24 hours"]
   else []) ++
  (if recentMemories.length < weekMemories.length then
    ["Memory formation has been consistent over the past week (" ++
      toString (weekMemories.length - recentMemories.length) ++ " additional memories)"]
   else [])

/-- `ReflectionService.analyzeTopicClusters`: frequency of tokens longer than
3 characters (top 5) plus, per focus area, the count of chunks whose
lower-cased text contains the lower-cased area. -/
noncomputable def analyzeTopicClusters (memories : List MemoryChunk)
    (focusAreas : List String) : List String :=
  let keywordFreq := memories.foldl (fun acc m =>
    (((jsSplitWs (jsToLower m.text)).filter (fun w => 3 < w.length))).foldl
      upsertCount acc) []
  let topKeywords := (jsSortCmp (fun a b => ((b.2 : ℝ) - (a.2 : ℝ))) keywordFreq).take 5
  (if 0 < topKeywords.length then
    ["Dominant topics in memory: " ++ String.intercalate ", "
      (topKeywords.map (fun p => p.1 ++ " (" ++ toString p.2 ++ ")"))]
   else []) ++
  focusAreas.flatMap (fun area =>
    let relatedMemories := memories.filter (fun m =>
      jsIncludes (jsToLower m.text) (jsToLower area))
    if 0 < relatedMemories.length then
      [toString relatedMemories.length ++ " memories relate to focus area: " ++ area]
    else [])

/-- `ReflectionService.performDeepAnalysis`: the most frequently accessed
chunk (among those accessed more than once) and the count of decay-resistant
chunks (`score > 1.5` and `accessCount > 2`). -/
noncomputable def performDeepAnalysis (memories : List MemoryChunk) : List String :=
  let accessPatterns := memories.foldl (fun acc m =>
    if 1 < m.accessCount then acc ++ [(m.text.take 50, m.accessCount)] else acc) []
  (if 0 < accessPatterns.length then
    let mostAccessed := (jsSortCmp (fun a b => ((b.2 : ℝ) - (a.2 : ℝ)))
      accessPatterns).headD ("", 0)
    ["Most frequently accessed memory: \"" ++ mostAccessed.1 ++ "...\" (" ++
      toString mostAccessed.2 ++ " accesses)"]
   else []) ++
  (let resistantMemories := memories.filter (fun m =>
    decide (1.5 < m.score ∧ 2 < m.accessCount))
   if 0 < resistantMemories.length then
     [toString resistantMemories.length ++
       " memories show strong resistance to decay, indicating high importance"]
   else [])

/-- `ReflectionService.performMetacognitiveAnalysis`: share of learning-related
chunks and the count of consolidated chunks (`score > 2.0` and
`accessCount > 3`). -/
noncomputable def performMetacognitiveAnalysis (memories : List MemoryChunk) :
    List String :=
  let learningMemories := memories.filter (fun m =>
    jsIncludes m.source "learning" ||
      decide (m.metadata.lookup "category" = some "skill_development"))
  (if 0 < learningMemories.length then
    ["Learning-related memories comprise " ++
      toString (jsRound ((learningMemories.length : ℚ) / (memories.length : ℚ) * 100)) ++
      "% of analyzed memories"]
   else []) ++
  (let consolidatedMemories := memories.filter (fun m =>
    decide (2.0 < m.score ∧ 3 < m.accessCount))
   if 0 < consolidatedMemories.length then
     [toString consolidatedMemories.length ++
       " memories show signs of knowledge consolidation through repeated reinforcement"]
   else [])

/-- `ReflectionService.analyzeMemories`: concatenate the analyses in
generation order, gating the deep and metacognitive passes on the requested
depth, and cap at 5/10/15 insights. -/
noncomputable def analyzeMemories (now : ℝ) (memories : List MemoryChunk)
    (depth : ReflectionDepth) (focusAreas : List String) : List String :=
  let insights :=
    identifyPatterns memories ++
    analyzeTemporalPatterns now memories ++
    analyzeTopicClusters memories focusAreas ++
    (if depth = .medium ∨ depth = .deep then performDeepAnalysis memories else []) ++
    (if depth = .deep then performMetacognitiveAnalysis memories else [])
  insights.take (match depth with
    | .shallow => 5
    | .medium => 10
    | .deep => 15)

/-- `ReflectionService.calculateTextSimilarity`: token-set Jaccard similarity
over lower-cased whitespace-split tokens. -/
def calculateTextSimilarity (text1 text2 : String) : ℚ :=
  let words1 := (jsSplitWs (jsToLower text1)).toFinset
  let words2 := (jsSplitWs (jsToLower text2)).toFinset
  ((words1 ∩ words2).card : ℚ) / ((words1 ∪ words2).card : ℚ)

/-- The `prisma.memoryLink.findFirst` existence check of the discovery step:
an edge between the two ids in either direction. -/
def linkExistsBetween (links : List MemoryLink) (a b : String) : Bool :=
  links.any (fun l => (l.sourceId == a && l.targetId == b) ||
    (l.sourceId == b && l.targetId == a))

/-- The index pairs visited by the discovery loops: `i` ranges over
`0 ≤ i < n - 1` and `j` over `i + 1 ≤ j` with `j < n` and `j < i + 10`, in
iteration order. -/
def discoverPairs (n : ℕ) : List (ℕ × ℕ) :=
  (List.range (n - 1)).flatMap (fun i =>
    ((List.range' (i + 1) 9).filter (fun j => decide (j < n))).map (fun j => (i, j)))

/-- The candidate stream of `discoverMemoryConnections` before the final cap:
one candidate per visited pair whose text similarity exceeds `0.7` and for
which no link exists in either direction. -/
noncomputable def candidateConnections (links : List MemoryLink)
    (memories : List MemoryChunk) (now : ℝ) : List NewConnection :=
  (discoverPairs memories.length).filterMap (fun p =>
    let mi := memories.getD p.1 emptyChunk
    let mj := memories.getD p.2 emptyChunk
    let similarity := calculateTextSimilarity mi.text mj.text
    if 0.7 < similarity then
      if linkExistsBetween links mi.id mj.id then none
      else some { sourceIndex := p.1, targetIndex := p.2, sourceId := mi.id,
                  targetId := mj.id, strength := similarity,
                  linkType := .semantic, createdAt := now }
    else none)

/-- `ReflectionService.discoverMemoryConnections`: the candidate stream capped
at 10 connections. -/
noncomputable def discoverMemoryConnections (links : List MemoryLink)
    (memories : List MemoryChunk) (now : ℝ) : List NewConnection :=
  (candidateConnections links memories now).take 10

/-- `ReflectionService.generateRecommendations`: threshold-driven
recommendation strings, capped at 5. -/
noncomputable def generateRecommendations (insights : List String)
    (memories : List MemoryChunk) : List String :=
  let recommendations :=
    (if 10 < (memories.filter (fun m => decide (m.score < 0.5))).length then
      ["Consider reviewing and reinforcing important memories that are showing signs of decay"]
     else []) ++
    (let learningMemories := memories.filter (fun m =>
      jsIncludes m.text "learn" || jsIncludes m.text "study" || jsIncludes m.text "practice")
     if 0 < learningMemories.length then
       ["Continue reinforcing learning-related memories through active recall and application"]
     else []) ++
    (if (memories.map (fun m => m.source)).dedup.length < 3 then
      ["Consider diversifying information sources to build a more comprehensive knowledge base"]
     else [])
  recommendations.take 5

/-- `ReflectionService.calculateConfidenceScore` read over plain reals, the
value carried by the pipeline's `confidenceScore` field: weighted sum of the
memory count, insight count and mean memory score terms, capped at 1.  Under
this reading the empty-list mean `0 / 0` is `0` by the Lean division
convention; the JavaScript-faithful reading of the same source arithmetic,
which propagates the `NaN` produced by `0 / 0`, is
`calculateConfidenceScoreJs`, and the two readings agree on every NONEMPTY
memory list (a proven agreement lemma), so only the empty-gather value
differs. -/
noncomputable def calculateConfidenceScore (memories : List MemoryChunk)
    (insights : List String) : ℝ :=
  let score :=
    min ((memories.length : ℝ) / 50) 1 * 0.3 +
    min ((insights.length : ℝ) / 10) 1 * 0.3 +
    min ((memories.foldl (fun sum m => sum + m.score) 0 / (memories.length : ℝ)) / 2) 1 * 0.4
  min score 1

/-- The degraded result returned by the `catch` branch of
`generateReflection`. -/
noncomputable def degradedReflectionResult : ReflectionResult :=
  { insights := ["Error generating reflection insights"],
    newConnections := [],
    recommendations := ["Unable to generate recommendations at this time"],
    confidenceScore := 0 }

/-- `ReflectionService.generateReflection`: the full pipeline wrapped in
`try`/`catch`.  In this embedding, the fallible phase of the pipeline is the
gather (its bucket reads throw on an unknown bucket name); the analysis,
discovery and recommendation phases are total functions, and `saveReflections`
only writes rows without contributing to the returned value, so the returned
value is determined by the phases below.  Any thrown failure is mapped by the
`catch` to the degraded sentinel result. -/
noncomputable def generateReflection (st : Store) (now : ℝ)
    (request : ReflectionRequest) (conductorId : String) : ReflectionResult :=
  match gatherMemoriesForReflection st now request.memoryScope with
  | .error _ => degradedReflectionResult
  | .ok (memories, _) =>
    let insights := analyzeMemories now memories request.reflectionDepth
      request.focusAreas
    let newConnections := discoverMemoryConnections st.links memories now
    let recommendations := generateRecommendations insights memories
    { insights := insights, newConnections := newConnections,
      recommendations := recommendations,
      confidenceScore := calculateConfidenceScore memories insights }

end ReflectionService

/-! ### Helper definitions and lemmas for the verification -/

open MemoryService ReflectionService

/-- The effect of one `applyMemoryDecay` pass on a single row: deletion when
the decayed score falls under the eviction threshold, otherwise the row with
the decayed score (and every other field unchanged). -/
noncomputable def decayStepFn (now : ℝ) (c : MemoryChunk) : Option MemoryChunk :=
  if decayNewScore now c < 0.05 then none
  else some { c with score := decayNewScore now c }

/-- Concrete chunk for the C2 analysis: score `1`, decay rate `1/2`, last
accessed at epoch time `0`. -/
noncomputable def exC2Chunk : MemoryChunk :=
  { emptyChunk with id := "c", score := 1, decayRate := 1 / 2 }

/-- Singleton store holding `exC2Chunk`. -/
noncomputable def exC2Store : Store :=
  { buckets := [], chunks := [exC2Chunk], links := [] }

/-- The per-chunk invariant of spec section 3: nonnegative score and a decay
rate strictly between 0 and 1. -/
def chunkInvariant (c : MemoryChunk) : Prop :=
  0 ≤ c.score ∧ 0 < c.decayRate ∧ c.decayRate < 1

/-- The store-wide chunk invariant. -/
def storeInvariant (st : Store) : Prop :=
  ∀ c ∈ st.chunks, chunkInvariant c

/-- Concrete chunk for the C8 analysis: a freshly boosted-about chunk with
score `1` and decay rate `1/2`. -/
noncomputable def exC8Chunk : MemoryChunk :=
  { emptyChunk with id := "c1", score := 1, decayRate := 1 / 2 }

/-- Singleton store holding `exC8Chunk`. -/
noncomputable def exC8Store : Store :=
  { buckets := [], chunks := [exC8Chunk], links := [] }

/-- The chunk `exC8Chunk` after `boostMemory` with amount `-2` at time 0. -/
noncomputable def exC8BoostedChunk : MemoryChunk :=
  { exC8Chunk with
      score := exC8Chunk.score + (-2)
      lastAccessed := 0
      accessCount := exC8Chunk.accessCount + 1 }

/-- The store `exC8Store` after `boostMemory` with amount `-2` at time 0. -/
noncomputable def exC8Boosted : Store :=
  { buckets := [], chunks := [exC8BoostedChunk], links := [] }

/-- Bucketless store for the C5 failure scenario. -/
noncomputable def exC5Store : Store := { buckets := [], chunks := [], links := [] }

/-- Reflection request whose scope names a bucket that is not registered in
`exC5Store`. -/
def exC5Request : ReflectionRequest :=
  { triggerType := "user_request", memoryScope := ["semantic_stm"],
    reflectionDepth := .shallow, focusAreas := [] }

/-- First chunk of the C6 discovery scenario. -/
noncomputable def exC6A : MemoryChunk :=
  { emptyChunk with id := "m1", text := "a b" }

/-- Second chunk of the C6 discovery scenario, with the same text as
`exC6A`. -/
noncomputable def exC6B : MemoryChunk :=
  { emptyChunk with id := "m2", text := "a b" }

/-- The gathered chunk list of the C6 discovery scenario. -/
noncomputable def exC6Mems : List MemoryChunk := [exC6A, exC6B]

/-- The access-tracking update applied to a single chunk row: `lastAccessed`
set to now, `accessCount` incremented. -/
noncomputable def touched (now : ℝ) (c : MemoryChunk) : MemoryChunk :=
  { c with lastAccessed := now, accessCount := c.accessCount + 1 }

/-- The chunk-list effect of `touchChunk`: update the rows carrying the given
id. -/
noncomputable def touchList (now : ℝ) (l : List MemoryChunk) (chunkId : String) :
    List MemoryChunk :=
  l.map (fun c => if c.id = chunkId then touched now c else c)

/-- Registered bucket for the C4 retrieval scenario. -/
def exC4Bucket : MemoryBucket :=
  { id := "b1", name := "episodic_stm", description := "Episodic STM",
    bucketType := .STM }

/-- Stored chunk of the C4 retrieval scenario. -/
noncomputable def exC4Chunk : MemoryChunk :=
  { emptyChunk with id := "x1", bucketId := "b1", score := 1 }

/-- Store of the C4 retrieval scenario: one registered bucket holding one
chunk. -/
noncomputable def exC4Store : Store :=
  { buckets := [exC4Bucket], chunks := [exC4Chunk], links := [] }

/-- Bucket of the C3 gather scenario. -/
def exC3Bucket : MemoryBucket :=
  { id := "g1", name := "semantic_ltm", description := "Semantic LTM",
    bucketType := .LTM }

/-- Store of the C3 gather scenario: one registered bucket, no chunks. -/
noncomputable def exC3Store : Store :=
  { buckets := [exC3Bucket], chunks := [], links := [] }

/-- Bucket of the C10 search scenario. -/
def exC10Bucket : MemoryBucket :=
  { id := "s1", name := "episodic_stm", description := "Episodic STM",
    bucketType := .STM }

/-- High-score chunk of the C10 search scenario whose embedding `[0, 1]` is
orthogonal to the query `[1, 0]` (cosine similarity `0`). -/
noncomputable def exC10A : MemoryChunk :=
  { emptyChunk with
      id := "a"
      bucketId := "s1"
      score := 2
      embedding := [0, 1] }

/-- Low-score chunk of the C10 search scenario whose embedding `[1, 0]`
matches the query exactly (cosine similarity `1`). -/
noncomputable def exC10B : MemoryChunk :=
  { emptyChunk with
      id := "b"
      bucketId := "s1"
      score := 1
      embedding := [1, 0] }

/-- Store of the C10 search scenario. -/
noncomputable def exC10Store : Store :=
  { buckets := [exC10Bucket], chunks := [exC10A, exC10B], links := [] }

/-- `exC10A` with its computed similarity `0` attached. -/
noncomputable def exC10ASim : MemoryChunk :=
  { exC10A with similarity := some 0 }

/-- `exC10B` with its computed similarity `1` attached. -/
noncomputable def exC10BSim : MemoryChunk :=
  { exC10B with similarity := some 1 }

/-- The similarity-attaching map of `getMemoriesFromBucket`
(`{...chunk, similarity: ...}`). -/
noncomputable def attachSimilarity (q : List ℝ) (c : MemoryChunk) : MemoryChunk :=
  { c with similarity := some (calculateCosineSimilarity q c.embedding) }

/-- JavaScript numbers idealised as exact reals extended with the IEEE
special values `NaN` and the two infinities (negative zero is not
distinguished from zero, and finite-precision rounding is not modelled). -/
inductive JsNumber
  | num (x : ℝ)
  | posInf
  | negInf
  | nan
deriving Inhabited

/-- JavaScript `Math.min` on two numbers: `NaN` if either argument is
`NaN`, otherwise the order minimum with the infinities at the ends. -/
noncomputable def jsMin : JsNumber → JsNumber → JsNumber
  | .nan, _ => .nan
  | _, .nan => .nan
  | .num x, .num y => .num (min x y)
  | .negInf, _ => .negInf
  | _, .negInf => .negInf
  | .posInf, b => b
  | a, .posInf => a

/-- JavaScript `+` on two numbers: `NaN` propagates, opposite infinities
give `NaN`, an infinity absorbs finite summands. -/
noncomputable def jsAdd : JsNumber → JsNumber → JsNumber
  | .nan, _ => .nan
  | _, .nan => .nan
  | .num x, .num y => .num (x + y)
  | .posInf, .negInf => .nan
  | .negInf, .posInf => .nan
  | .posInf, _ => .posInf
  | _, .posInf => .posInf
  | .negInf, _ => .negInf
  | _, .negInf => .negInf

/-- JavaScript `*` on two numbers: `NaN` propagates, `0 * Infinity` is
`NaN`, otherwise infinities follow the sign rules. -/
noncomputable def jsMul : JsNumber → JsNumber → JsNumber
  | .nan, _ => .nan
  | _, .nan => .nan
  | .num x, .num y => .num (x * y)
  | .posInf, .num y => if y = 0 then .nan else if 0 < y then .posInf else .negInf
  | .num x, .posInf => if x = 0 then .nan else if 0 < x then .posInf else .negInf
  | .negInf, .num y => if y = 0 then .nan else if 0 < y then .negInf else .posInf
  | .num x, .negInf => if x = 0 then .nan else if 0 < x then .negInf else .posInf
  | .posInf, .posInf => .posInf
  | .negInf, .negInf => .posInf
  | .posInf, .negInf => .negInf
  | .negInf, .posInf => .negInf

/-- JavaScript `/` on two numbers: `NaN` propagates, `0 / 0` is `NaN`, a
nonzero real over zero is a signed infinity (the unsigned zero of this model
behaves as `+0`), a real over an infinity is `0`, an infinity over a real is
a signed infinity, and an infinity over an infinity is `NaN`. -/
noncomputable def jsDiv : JsNumber → JsNumber → JsNumber
  | .nan, _ => .nan
  | _, .nan => .nan
  | .num x, .num y =>
    if y = 0 then (if x = 0 then .nan else if 0 < x then .posInf else .negInf)
    else .num (x / y)
  | .num _, .posInf => .num 0
  | .num _, .negInf => .num 0
  | .posInf, .num y => if 0 ≤ y then .posInf else .negInf
  | .negInf, .num y => if 0 ≤ y then .negInf else .posInf
  | .posInf, .posInf => .nan
  | .posInf, .negInf => .nan
  | .negInf, .posInf => .nan
  | .negInf, .negInf => .nan

/-- `ReflectionService.calculateConfidenceScore` under JavaScript number
semantics: the source's accumulation `score = 0`, `score += min(memories.length
/ 50, 1) * 0.3`, `score += min(insights.length / 10, 1) * 0.3`,
`score += min(avgMemoryScore / 2, 1) * 0.4` with `avgMemoryScore` the reduced
score sum over `memories.length`, returning `Math.min(score, 1)` — computed in
`JsNumber`, so the `0 / 0` produced by an empty memory list is `NaN` and
propagates through `Math.min`, `*` and `+` exactly as in the source's
runtime. -/
noncomputable def ReflectionService.calculateConfidenceScoreJs
    (memories : List MemoryChunk) (insights : List String) : JsNumber :=
  let score :=
    jsAdd (jsAdd (jsAdd (.num 0)
      (jsMul (jsMin (jsDiv (.num (memories.length : ℝ)) (.num 50)) (.num 1)) (.num 0.3)))
      (jsMul (jsMin (jsDiv (.num (insights.length : ℝ)) (.num 10)) (.num 1)) (.num 0.3)))
      (jsMul (jsMin (jsDiv (jsDiv
        (.num (memories.foldl (fun sum m => sum + m.score) 0))
        (.num (memories.length : ℝ))) (.num 2)) (.num 1)) (.num 0.4))
  jsMin score (.num 1)

/-- The confidence formula as the spec words it (section 4.5 step 6):
`0.3 * min(chunkCount/50, 1) + 0.3 * min(insightCount/10, 1) +
0.4 * min(meanChunkScore/2, 1)`, stated over plain reals for comparison with
the source computation. -/
noncomputable def specConfidenceWeightedSum (memories : List MemoryChunk)
    (insights : List String) : ℝ :=
  0.3 * min ((memories.length : ℝ) / 50) 1 +
  0.3 * min ((insights.length : ℝ) / 10) 1 +
  0.4 * min ((memories.foldl (fun sum m => sum + m.score) 0 /
    (memories.length : ℝ)) / 2) 1

/-- Chunk for the C9 nonempty-gather witness. -/
noncomputable def exC9Chunk : MemoryChunk :=
  { emptyChunk with id := "k1", score := 1 }

/-! ### Theorems -/

theorem decayChunks_characterization (now : ℝ) (l : List MemoryChunk) :
    (decayChunks now l).1 = l.filterMap (decayStepFn now) ∧
    (decayChunks now l).2.1 = l.length ∧
    (decayChunks now l).2.2.1 = (l.filter (fun c =>
      decide (¬ decayNewScore now c < 0.05 ∧ decayNewScore now c ≠ c.score))).length ∧
    (decayChunks now l).2.2.2 = (l.filter (fun c =>
      decide (decayNewScore now c < 0.05))).length := by
  induction l with
  | nil => simp [decayChunks]
  | cons c cs ih =>
    obtain ⟨h1, h2, h3, h4⟩ := ih
    by_cases hlt : decayNewScore now c < 0.05
    · simp [decayChunks, decayStepFn, hlt, h1, h2, h3, h4]
    · have hle : (0.05 : ℝ) ≤ decayNewScore now c := not_lt.mp hlt
      by_cases heq : decayNewScore now c = c.score
      · have hc : ({ c with score := decayNewScore now c } : MemoryChunk) = c := by
          rw [heq]
        have hlt2 : ¬ c.score < 0.05 := by rw [← heq]; exact hlt
        have hle2 : (0.05 : ℝ) ≤ c.score := not_lt.mp hlt2
        simp [decayChunks, decayStepFn, List.filter_cons, hlt, hle, heq, hlt2, hle2,
          h1, h2, h3, h4, hc]
      · simp [decayChunks, decayStepFn, List.filter_cons, hlt, hle, heq, h1, h2, h3, h4]

theorem filterMap_decayStepFn_lastAccessed (now : ℝ) (l : List MemoryChunk) :
    (l.filterMap (decayStepFn now)).map (fun c => c.lastAccessed) =
      (l.filter (fun c => decide (¬ decayNewScore now c < 0.05))).map
        (fun c => c.lastAccessed) := by
  induction l with
  | nil => simp
  | cons c cs ih =>
    by_cases hlt : decayNewScore now c < 0.05
    · simp [decayStepFn, hlt, ih]
    · have hle : (0.05 : ℝ) ≤ decayNewScore now c := not_lt.mp hlt
      simp [decayStepFn, List.filter_cons, hlt, hle, ih]

/-! ### C1: the decay pass -/

/-- C1: `applyMemoryDecay` visits every chunk of the store; a chunk whose
decayed score `score * decayRate ^ elapsedHours` falls under `0.05` is deleted,
every other chunk persists (with the decayed score whenever it differs from
the old one, and with `lastAccessed` untouched); the returned counters are the
number of processed rows, of retained rows whose score changed, and of deleted
rows. -/
theorem applyMemoryDecay_spec (now : ℝ) (st : Store) :
    (applyMemoryDecay now st).1.chunks = st.chunks.filterMap (decayStepFn now) ∧
    (applyMemoryDecay now st).1.chunks.map (fun c => c.lastAccessed) =
      (st.chunks.filter (fun c => decide (¬ decayNewScore now c < 0.05))).map
        (fun c => c.lastAccessed) ∧
    (applyMemoryDecay now st).2.1 = st.chunks.length ∧
    (applyMemoryDecay now st).2.2.1 = (st.chunks.filter (fun c =>
      decide (¬ decayNewScore now c < 0.05 ∧ decayNewScore now c ≠ c.score))).length ∧
    (applyMemoryDecay now st).2.2.2 = (st.chunks.filter (fun c =>
      decide (decayNewScore now c < 0.05))).length := by
  obtain ⟨h1, h2, h3, h4⟩ := decayChunks_characterization now st.chunks
  refine ⟨h1, ?_, h2, h3, h4⟩
  rw [show (applyMemoryDecay now st).1.chunks = (decayChunks now st.chunks).1 from rfl,
    h1, filterMap_decayStepFn_lastAccessed]

/-! ### C2: repeated decay runs

The decay pass never touches `lastAccessed`, so a second `applyMemoryDecay`
at the same wall-clock time recomputes the decayed score over the SAME
elapsed window: the surviving score is multiplied by
`decayRate ^ elapsedHours` once more, and the claimed near-idempotence only
holds when the elapsed time since the chunk's last access is itself zero. -/

/-- C2 (amended): after a chunk survives a first `applyMemoryDecay` run, a
second run with the same wall-clock time applies the factor
`decayRate ^ elapsedHours` again (the store after two runs is the two-fold
composition of the per-row decay step, and the recomputed score of a
surviving row equals `score * decayRate ^ (2 * elapsedHours)`); the second
run changes a chunk's score by nothing exactly when no time has elapsed
since the chunk's `lastAccessed`. -/
theorem applyMemoryDecay_second_run (now : ℝ) (st : Store) :
    (applyMemoryDecay now (applyMemoryDecay now st).1).1.chunks =
      st.chunks.filterMap (fun c =>
        (decayStepFn now c).bind (decayStepFn now)) ∧
    (∀ c : MemoryChunk, 0 < c.decayRate →
      decayNewScore now ({ c with score := decayNewScore now c }) =
        c.score * c.decayRate ^ (2 * hoursSinceAccess now c)) ∧
    (∀ c : MemoryChunk, c.lastAccessed = now → decayNewScore now c = c.score) := by
  refine ⟨?_, ?_, ?_⟩
  · have h1 := (decayChunks_characterization now st.chunks).1
    have h2 := (decayChunks_characterization now
      ((applyMemoryDecay now st).1.chunks)).1
    have hst : (applyMemoryDecay now st).1.chunks =
        st.chunks.filterMap (decayStepFn now) := h1
    rw [show (applyMemoryDecay now (applyMemoryDecay now st).1).1.chunks =
      (decayChunks now ((applyMemoryDecay now st).1.chunks)).1 from rfl, h2, hst,
      List.filterMap_filterMap]
  · intro c hc
    show ({ c with score := decayNewScore now c } : MemoryChunk).score *
        _ ^ hoursSinceAccess now _ = _
    have hh : hoursSinceAccess now ({ c with score := decayNewScore now c }) =
        hoursSinceAccess now c := rfl
    show decayNewScore now c * c.decayRate ^ hoursSinceAccess now c = _
    rw [decayNewScore, two_mul, Real.rpow_add hc, mul_assoc]
  · intro c hl
    rw [decayNewScore, hoursSinceAccess, hl, sub_self, zero_div,
      Real.rpow_zero, mul_one]

/-- Witness for the amended C2 theorem at the concrete chunk `exC2Chunk`. -/
theorem applyMemoryDecay_second_run_witness :
    decayNewScore 3600000 ({ exC2Chunk with score := decayNewScore 3600000 exC2Chunk }) =
      exC2Chunk.score * exC2Chunk.decayRate ^ (2 * hoursSinceAccess 3600000 exC2Chunk) ∧
    decayNewScore 0 emptyChunk = emptyChunk.score := by
  refine ⟨(applyMemoryDecay_second_run 3600000 exC2Store).2.1 exC2Chunk ?_,
    (applyMemoryDecay_second_run 0 exC2Store).2.2 emptyChunk ?_⟩
  · show (0 : ℝ) < (1 / 2 : ℝ)
    norm_num
  · show (0 : ℝ) = 0
    rfl

/-- C2 counterexample: the chunk of `exC2Store` was last accessed one hour
before the decay run, so each run multiplies its score by
`(1/2) ^ 1 = 1/2`.  It survives the first run with score `1/2`; the second
run, at the same wall-clock time, changes the score again, to `1/4` — a
change of a quarter of the original score and half of the surviving score,
not a negligible amount.  Repeated runs therefore compound the same elapsed
window instead of converging after the first run. -/
theorem applyMemoryDecay_not_near_idempotent :
    (applyMemoryDecay 3600000 exC2Store).1.chunks.map (fun c => c.score) = [1 / 2] ∧
    (applyMemoryDecay 3600000
        (applyMemoryDecay 3600000 exC2Store).1).1.chunks.map (fun c => c.score) =
      [1 / 4] ∧
    ¬ ((1 / 2 : ℝ) - 1 / 4 < 1 / 5) := by
  have hexp : ((3600000 : ℝ) - 0) / (1000 * 60 * 60) = 1 := by norm_num
  have hns : decayNewScore 3600000 exC2Chunk = 1 / 2 := by
    rw [decayNewScore, hoursSinceAccess]
    show (1 : ℝ) * (1 / 2 : ℝ) ^ (((3600000 : ℝ) - 0) / (1000 * 60 * 60)) = 1 / 2
    rw [hexp, Real.rpow_one]
    norm_num
  have hns2 : decayNewScore 3600000 ({ exC2Chunk with score := (1 / 2 : ℝ) }) = 1 / 4 := by
    rw [decayNewScore, hoursSinceAccess]
    show (1 / 2 : ℝ) * (1 / 2 : ℝ) ^ (((3600000 : ℝ) - 0) / (1000 * 60 * 60)) = 1 / 4
    rw [hexp, Real.rpow_one]
    norm_num
  have hrun1 : (applyMemoryDecay 3600000 exC2Store).1.chunks =
      [{ exC2Chunk with score := (1 / 2 : ℝ) }] := by
    show (decayChunks 3600000 [exC2Chunk]).1 = _
    rw [decayChunks, decayChunks]
    simp only [hns]
    rw [if_neg (by norm_num), if_neg (by
      show ¬ (1 / 2 : ℝ) = exC2Chunk.score
      show ¬ (1 / 2 : ℝ) = 1
      norm_num)]
  have hrun2 : (applyMemoryDecay 3600000 (applyMemoryDecay 3600000 exC2Store).1).1.chunks =
      [{ exC2Chunk with score := (1 / 4 : ℝ) }] := by
    show (decayChunks 3600000 ((applyMemoryDecay 3600000 exC2Store).1.chunks)).1 = _
    rw [hrun1, decayChunks, decayChunks]
    simp only [hns2]
    rw [if_neg (by norm_num), if_neg (by
      show ¬ (1 / 4 : ℝ) = (1 / 2 : ℝ)
      norm_num)]
  refine ⟨?_, ?_, by norm_num⟩
  · rw [hrun1]; rfl
  · rw [hrun2]; rfl

/-! ### C8: the score/decay-rate invariant -/

/-- C8 (amended): chunk creation, boosting by a NONNEGATIVE amount, and the
decay pass all preserve the invariant that every stored chunk has a
nonnegative score and a decay rate strictly between 0 and 1; a created chunk
has score exactly 1 and a decay rate in (0,1); decayed chunks are deleted
rather than left with a negative score (survivors keep a score of at least
the eviction threshold). -/
theorem score_invariant_preserved :
    (∀ st now bucketName text emb mv source agentId md newId ch st',
      storeInvariant st →
      addMemoryChunk st now bucketName text emb mv source agentId md newId =
        .ok (ch, st') →
      storeInvariant st' ∧ ch.score = 1 ∧ 0 < ch.decayRate ∧ ch.decayRate < 1) ∧
    (∀ st now chunkId amount st',
      storeInvariant st → 0 ≤ amount →
      boostMemory st now chunkId amount = .ok st' → storeInvariant st') ∧
    (∀ st now, storeInvariant st →
      storeInvariant (applyMemoryDecay now st).1) := by
  have hrate : ∀ t : BucketType, 0 < decayRateFor t ∧ decayRateFor t < 1 := by
    intro t
    cases t <;>
      norm_num [decayRateFor, MEMORY_DECAY_RATE_STM, MEMORY_DECAY_RATE_LTM,
        MEMORY_DECAY_RATE_RL]
  refine ⟨?_, ?_, ?_⟩
  · intro st now bucketName text emb mv source agentId md newId ch st' hinv hok
    rw [addMemoryChunk] at hok
    cases hfb : findBucket st bucketName with
    | none => rw [hfb] at hok; exact absurd hok (by simp)
    | some bucket =>
      rw [hfb] at hok
      simp only [Except.ok.injEq, Prod.mk.injEq] at hok
      obtain ⟨hch, hst⟩ := hok
      have hnew : chunkInvariant ch := by
        rw [← hch]
        exact ⟨by norm_num [createdChunk], (hrate bucket.bucketType).1,
          (hrate bucket.bucketType).2⟩
      refine ⟨?_, by rw [← hch]; norm_num [createdChunk], hnew.2.1, hnew.2.2⟩
      intro c hc
      rw [← hst] at hc
      simp only [List.mem_append, List.mem_singleton] at hc
      rcases hc with hc | hc
      · exact hinv c hc
      · rw [hc, hch]
        exact hnew
  · intro st now chunkId amount st' hinv hamt hok
    rw [boostMemory] at hok
    by_cases hany : st.chunks.any (fun c => c.id == chunkId)
    · rw [if_pos hany] at hok
      simp only [Except.ok.injEq] at hok
      intro c hc
      rw [← hok] at hc
      simp only [List.mem_map] at hc
      obtain ⟨c0, hc0, hmap⟩ := hc
      obtain ⟨hs0, hr0, hr1⟩ := hinv c0 hc0
      by_cases hid : c0.id = chunkId
      · rw [if_pos hid] at hmap
        rw [← hmap]
        exact ⟨add_nonneg hs0 hamt, hr0, hr1⟩
      · rw [if_neg hid] at hmap
        rw [← hmap]
        exact ⟨hs0, hr0, hr1⟩
    · rw [if_neg hany] at hok
      exact absurd hok (by simp)
  · intro st now hinv
    intro c hc
    rw [show (applyMemoryDecay now st).1.chunks = (decayChunks now st.chunks).1 from rfl,
      (decayChunks_characterization now st.chunks).1] at hc
    simp only [List.mem_filterMap] at hc
    obtain ⟨c0, hc0, hstep⟩ := hc
    rw [decayStepFn] at hstep
    by_cases hlt : decayNewScore now c0 < 0.05
    · rw [if_pos hlt] at hstep; exact absurd hstep (by simp)
    · rw [if_neg hlt] at hstep
      simp only [Option.some.injEq] at hstep
      obtain ⟨-, hr0, hr1⟩ := hinv c0 hc0
      rw [← hstep]
      exact ⟨le_trans (by norm_num) (not_lt.mp hlt), hr0, hr1⟩

/-- Witness for the amended C8 theorem: the invariant holds of `exC8Store`
and is preserved by a decay pass over it. -/
theorem score_invariant_preserved_witness :
    storeInvariant (applyMemoryDecay 0 exC8Store).1 := by
  refine score_invariant_preserved.2.2 exC8Store 0 ?_
  intro c hc
  simp only [exC8Store, List.mem_singleton] at hc
  rw [hc]
  refine ⟨?_, ?_, ?_⟩ <;> norm_num [exC8Chunk, emptyChunk, chunkInvariant]

/-- C8 counterexample: `boostMemory` accepts any amount, so boosting the
chunk `c1` (score `1`) by `-2` succeeds and leaves the chunk in the store
with score `-1 < 0`, violating the claimed invariant for sequences that
include a boost with a negative amount. -/
theorem boost_negative_score_counterexample :
    boostMemory exC8Store 0 "c1" (-2) = .ok exC8Boosted ∧
    exC8Boosted.chunks.map (fun c => c.score) = [(-1 : ℝ)] ∧
    ¬ storeInvariant exC8Boosted := by
  refine ⟨?_, ?_, ?_⟩
  · rw [boostMemory, if_pos (by simp [exC8Store, exC8Chunk, emptyChunk])]
    simp only [exC8Store, exC8Boosted, List.map]
    rw [if_pos (show exC8Chunk.id = "c1" from rfl)]
    rfl
  · simp only [exC8Boosted, List.map]
    norm_num [exC8BoostedChunk, exC8Chunk, emptyChunk]
  · intro hinv
    have h := hinv exC8BoostedChunk (by simp [exC8Boosted])
    have hs := h.1
    norm_num [exC8BoostedChunk, exC8Chunk, emptyChunk] at hs

/-! ### C9: the confidence score -/

theorem foldl_add_score_nonneg (l : List MemoryChunk) (init : ℝ) (h0 : 0 ≤ init)
    (h : ∀ c ∈ l, 0 ≤ c.score) : 0 ≤ l.foldl (fun sum m => sum + m.score) init := by
  induction l generalizing init with
  | nil => simpa using h0
  | cons c cs ih =>
    simp only [List.foldl_cons]
    exact ih (init + c.score)
      (add_nonneg h0 (h c (List.mem_cons_self c cs)))
      (fun d hd => h d (List.mem_cons_of_mem c hd))

/-- The real-division reading of the confidence computation: it equals the
weighted sum (the final cap at 1 never binds, since the weighted sum is at
most `0.3 + 0.3 + 0.4`), and under nonnegative chunk scores it lies in
`[0, 1]`.  This is a statement about `calculateConfidenceScore` only; at the
empty memory list its `0 / 0 = 0` convention diverges from the JavaScript
runtime, which `calculateConfidenceScoreJs` models. -/
theorem calculateConfidenceScore_real_reading (memories : List MemoryChunk)
    (insights : List String) :
    calculateConfidenceScore memories insights =
      0.3 * min ((memories.length : ℝ) / 50) 1 +
      0.3 * min ((insights.length : ℝ) / 10) 1 +
      0.4 * min ((memories.foldl (fun sum m => sum + m.score) 0 /
        (memories.length : ℝ)) / 2) 1 ∧
    ((∀ c ∈ memories, 0 ≤ c.score) →
      0 ≤ calculateConfidenceScore memories insights ∧
      calculateConfidenceScore memories insights ≤ 1) := by
  have h1 : min ((memories.length : ℝ) / 50) 1 ≤ 1 := min_le_right _ _
  have h2 : min ((insights.length : ℝ) / 10) 1 ≤ 1 := min_le_right _ _
  have h3 : min ((memories.foldl (fun sum m => sum + m.score) 0 /
      (memories.length : ℝ)) / 2) 1 ≤ 1 := min_le_right _ _
  have hcap : min ((memories.length : ℝ) / 50) 1 * 0.3 +
      min ((insights.length : ℝ) / 10) 1 * 0.3 +
      min ((memories.foldl (fun sum m => sum + m.score) 0 /
        (memories.length : ℝ)) / 2) 1 * 0.4 ≤ 1 := by linarith
  have heq : calculateConfidenceScore memories insights =
      min ((memories.length : ℝ) / 50) 1 * 0.3 +
      min ((insights.length : ℝ) / 10) 1 * 0.3 +
      min ((memories.foldl (fun sum m => sum + m.score) 0 /
        (memories.length : ℝ)) / 2) 1 * 0.4 := by
    rw [calculateConfidenceScore]
    exact min_eq_left hcap
  constructor
  · rw [heq]; ring
  · intro hnn
    have g1 : 0 ≤ min ((memories.length : ℝ) / 50) 1 :=
      le_min (by positivity) (by norm_num)
    have g2 : 0 ≤ min ((insights.length : ℝ) / 10) 1 :=
      le_min (by positivity) (by norm_num)
    have gsum : 0 ≤ memories.foldl (fun sum m => sum + m.score) 0 :=
      foldl_add_score_nonneg memories 0 le_rfl hnn
    have g3 : 0 ≤ min ((memories.foldl (fun sum m => sum + m.score) 0 /
        (memories.length : ℝ)) / 2) 1 :=
      le_min (by positivity) (by norm_num)
    constructor
    · rw [heq]; linarith
    · rw [heq]; exact hcap

theorem jsDiv_num_num (x y : ℝ) : jsDiv (.num x) (.num y) =
    if y = 0 then (if x = 0 then .nan else if 0 < x then .posInf else .negInf)
    else .num (x / y) := rfl

theorem jsDiv_nan_num (y : ℝ) : jsDiv .nan (.num y) = .nan := rfl

theorem jsMin_num_num (x y : ℝ) : jsMin (.num x) (.num y) = .num (min x y) := rfl

theorem jsMin_nan_num (y : ℝ) : jsMin .nan (.num y) = .nan := rfl

theorem jsMul_num_num (x y : ℝ) : jsMul (.num x) (.num y) = .num (x * y) := rfl

theorem jsMul_nan_num (y : ℝ) : jsMul .nan (.num y) = .nan := rfl

theorem jsAdd_num_num (x y : ℝ) : jsAdd (.num x) (.num y) = .num (x + y) := rfl

theorem jsAdd_num_nan (x : ℝ) : jsAdd (.num x) .nan = .nan := rfl

theorem calculateConfidenceScoreJs_empty (insights : List String) :
    calculateConfidenceScoreJs [] insights = JsNumber.nan := by
  have hd0 : jsDiv (.num (List.foldl (fun sum m => sum + m.score) 0
      ([] : List MemoryChunk))) (.num ((List.length ([] : List MemoryChunk)) : ℝ)) =
      JsNumber.nan := by
    rw [jsDiv_num_num, if_pos (by norm_num), if_pos (by norm_num)]
  rw [calculateConfidenceScoreJs]
  rw [hd0, jsDiv_nan_num, jsMin_nan_num, jsMul_nan_num,
    jsDiv_num_num, if_neg (by norm_num : ¬ (50 : ℝ) = 0),
    jsDiv_num_num, if_neg (by norm_num : ¬ (10 : ℝ) = 0),
    jsMin_num_num, jsMin_num_num, jsMul_num_num, jsMul_num_num,
    jsAdd_num_num, jsAdd_num_num, jsAdd_num_nan, jsMin_nan_num]

theorem calculateConfidenceScoreJs_agrees (memories : List MemoryChunk)
    (insights : List String) (h : memories ≠ []) :
    calculateConfidenceScoreJs memories insights =
      JsNumber.num (calculateConfidenceScore memories insights) := by
  have hlen0 : memories.length ≠ 0 := fun hh => h (List.length_eq_zero.mp hh)
  have hlen : ((memories.length : ℕ) : ℝ) ≠ 0 := Nat.cast_ne_zero.mpr hlen0
  rw [calculateConfidenceScoreJs, calculateConfidenceScore]
  rw [jsDiv_num_num, if_neg (by norm_num : ¬ (50 : ℝ) = 0),
    jsDiv_num_num, if_neg (by norm_num : ¬ (10 : ℝ) = 0),
    jsDiv_num_num, if_neg hlen,
    jsDiv_num_num, if_neg (by norm_num : ¬ (2 : ℝ) = 0),
    jsMin_num_num, jsMin_num_num, jsMin_num_num,
    jsMul_num_num, jsMul_num_num, jsMul_num_num,
    jsAdd_num_num, jsAdd_num_num, jsAdd_num_num, jsMin_num_num]
  congr 1
  congr 1
  ring

/-- C9 (amended): on a NONEMPTY gathered chunk set the source's confidence
computation returns exactly the spec's weighted sum
`0.3 * min(chunkCount/50, 1) + 0.3 * min(insightCount/10, 1) +
0.4 * min(meanChunkScore/2, 1)` (the final cap at 1 never binds), and under
nonnegative chunk scores that weighted sum lies in `[0, 1]`; on the EMPTY
gathered chunk set the source's mean is `0 / 0 = NaN`, which propagates
through `Math.min`, so the returned value is `NaN` rather than a number in
`[0, 1]`. -/
theorem calculateConfidenceScoreJs_spec :
    (∀ (memories : List MemoryChunk) (insights : List String),
      memories ≠ [] →
      calculateConfidenceScoreJs memories insights =
        JsNumber.num (specConfidenceWeightedSum memories insights)) ∧
    (∀ (memories : List MemoryChunk) (insights : List String),
      (∀ c ∈ memories, 0 ≤ c.score) →
      0 ≤ specConfidenceWeightedSum memories insights ∧
        specConfidenceWeightedSum memories insights ≤ 1) ∧
    (∀ insights : List String,
      calculateConfidenceScoreJs [] insights = JsNumber.nan) := by
  refine ⟨?_, ?_, calculateConfidenceScoreJs_empty⟩
  · intro memories insights h
    rw [calculateConfidenceScoreJs_agrees memories insights h,
      (calculateConfidenceScore_real_reading memories insights).1]
    rfl
  · intro memories insights hnn
    have hform : specConfidenceWeightedSum memories insights =
        calculateConfidenceScore memories insights := by
      rw [(calculateConfidenceScore_real_reading memories insights).1]
      rfl
    rw [hform]
    exact (calculateConfidenceScore_real_reading memories insights).2 hnn

/-- Witness for the amended C9 theorem at the nonempty gather `[exC9Chunk]`
with no insights. -/
theorem calculateConfidenceScoreJs_spec_witness :
    calculateConfidenceScoreJs [exC9Chunk] [] =
      JsNumber.num (specConfidenceWeightedSum [exC9Chunk] []) ∧
    0 ≤ specConfidenceWeightedSum [exC9Chunk] [] ∧
    specConfidenceWeightedSum [exC9Chunk] [] ≤ 1 := by
  have hnn : ∀ c ∈ [exC9Chunk], 0 ≤ c.score := by
    intro c hc
    simp only [List.mem_singleton] at hc
    rw [hc]
    norm_num [exC9Chunk, emptyChunk]
  obtain ⟨hb1, hb2⟩ := calculateConfidenceScoreJs_spec.2.1 [exC9Chunk] [] hnn
  exact ⟨calculateConfidenceScoreJs_spec.1 [exC9Chunk] [] (by simp), hb1, hb2⟩

/-- C9 counterexample: at the empty gathered chunk set — a case the claim
explicitly includes — the source computes `avgMemoryScore = 0 / 0 = NaN` and
`Math.min(NaN / 2, 1) = NaN`, so the returned value is `NaN`: not `0` and
not any number, hence not within `[0, 1]`. -/
theorem calculateConfidenceScore_empty_nan :
    calculateConfidenceScoreJs [] [] = JsNumber.nan ∧
    calculateConfidenceScoreJs [] [] ≠ JsNumber.num 0 ∧
    calculateConfidenceScoreJs [] [] ≠ JsNumber.num 1 := by
  have h := calculateConfidenceScoreJs_empty []
  refine ⟨h, ?_, ?_⟩ <;> rw [h] <;> intro hc <;> exact absurd hc (by simp)

/-! ### C7: cosine similarity -/

theorem sumMul_self_nonneg (v : List ℝ) : 0 ≤ sumMul v v := by
  induction v with
  | nil => simp [sumMul]
  | cons x xs ih =>
    simp only [sumMul, List.zipWith_cons_cons, List.sum_cons]
    exact add_nonneg (mul_self_nonneg x) ih

theorem sumMul_comm (v w : List ℝ) : sumMul v w = sumMul w v := by
  induction v generalizing w with
  | nil => cases w <;> simp [sumMul]
  | cons x xs ih =>
    cases w with
    | nil => simp [sumMul]
    | cons y ys =>
      simp only [sumMul, List.zipWith_cons_cons, List.sum_cons] at ih ⊢
      rw [mul_comm x y, ih ys]

theorem cauchySchwarz_step (x y d A B : ℝ) (hd : d ^ 2 ≤ A * B) (hA : 0 ≤ A)
    (hB : 0 ≤ B) : (x * y + d) ^ 2 ≤ (x * x + A) * (y * y + B) := by
  rcases eq_or_lt_of_le hB with h0 | hpos
  · have hd0 : d = 0 := by nlinarith [sq_nonneg d]
    rw [hd0, ← h0]
    nlinarith [mul_nonneg hA (mul_self_nonneg y)]
  · have key : 0 ≤ (x * B - y * d) ^ 2 + y ^ 2 * (A * B - d ^ 2) +
        B * (A * B - d ^ 2) := by
      have k1 : 0 ≤ (x * B - y * d) ^ 2 := sq_nonneg _
      have k2 : 0 ≤ y ^ 2 * (A * B - d ^ 2) :=
        mul_nonneg (sq_nonneg y) (sub_nonneg.mpr hd)
      have k3 : 0 ≤ B * (A * B - d ^ 2) :=
        mul_nonneg hB (sub_nonneg.mpr hd)
      linarith
    nlinarith [key, hpos]

theorem sumMul_sq_le (v w : List ℝ) :
    (sumMul v w) ^ 2 ≤ sumMul v v * sumMul w w := by
  induction v generalizing w with
  | nil => simp [sumMul]
  | cons x xs ih =>
    cases w with
    | nil =>
      simp only [sumMul, List.zipWith_nil_right, List.sum_nil]
      norm_num
    | cons y ys =>
      simp only [sumMul, List.zipWith_cons_cons, List.sum_cons] at ih ⊢
      exact cauchySchwarz_step x y _ _ _ (ih ys)
        (sumMul_self_nonneg xs) (sumMul_self_nonneg ys)

theorem cosineSimilarity_div_eq (a b : List ℝ) (hl : a.length = b.length)
    (hn : ¬ (sumMul a a = 0 ∨ sumMul b b = 0)) :
    calculateCosineSimilarity a b =
      sumMul a b / (Real.sqrt (sumMul a a) * Real.sqrt (sumMul b b)) := by
  rw [calculateCosineSimilarity]
  rw [if_neg (show ¬ a.length ≠ b.length from fun h => h hl)]
  exact if_neg hn

/-- C7: cosine similarity is symmetric; it is exactly `0` on vectors of
different lengths, on empty vectors, and whenever either squared norm
vanishes; in the remaining case its divisor `sqrt norm1 * sqrt norm2` is
nonzero (no division by zero), and the value always lies in `[-1, 1]` — in
particular for unit vectors. -/
theorem calculateCosineSimilarity_spec (a b : List ℝ) :
    calculateCosineSimilarity a b = calculateCosineSimilarity b a ∧
    (a.length ≠ b.length → calculateCosineSimilarity a b = 0) ∧
    (a = [] → calculateCosineSimilarity a b = 0) ∧
    (sumMul a a = 0 ∨ sumMul b b = 0 → calculateCosineSimilarity a b = 0) ∧
    (a.length = b.length → sumMul a a ≠ 0 → sumMul b b ≠ 0 →
      Real.sqrt (sumMul a a) * Real.sqrt (sumMul b b) ≠ 0) ∧
    -1 ≤ calculateCosineSimilarity a b ∧ calculateCosineSimilarity a b ≤ 1 := by
  have hzl : ∀ (u v : List ℝ), u.length ≠ v.length →
      calculateCosineSimilarity u v = 0 := by
    intro u v h
    rw [calculateCosineSimilarity, if_pos h]
  have hzn : ∀ (u v : List ℝ), sumMul u u = 0 ∨ sumMul v v = 0 →
      calculateCosineSimilarity u v = 0 := by
    intro u v h
    rw [calculateCosineSimilarity]
    by_cases hl : u.length ≠ v.length
    · rw [if_pos hl]
    · rw [if_neg hl, if_pos h]
  have hsqrtpos : ∀ (u : List ℝ), sumMul u u ≠ 0 → 0 < Real.sqrt (sumMul u u) := by
    intro u hu
    exact Real.sqrt_pos.mpr (lt_of_le_of_ne (sumMul_self_nonneg u) (Ne.symm hu))
  have hdivisor : ∀ (u v : List ℝ), sumMul u u ≠ 0 → sumMul v v ≠ 0 →
      Real.sqrt (sumMul u u) * Real.sqrt (sumMul v v) ≠ 0 := by
    intro u v hu hv
    exact ne_of_gt (mul_pos (hsqrtpos u hu) (hsqrtpos v hv))
  have hbounds : ∀ (u v : List ℝ), -1 ≤ calculateCosineSimilarity u v ∧
      calculateCosineSimilarity u v ≤ 1 := by
    intro u v
    by_cases hl : u.length ≠ v.length
    · rw [hzl u v hl]; norm_num
    · by_cases hn : sumMul u u = 0 ∨ sumMul v v = 0
      · rw [hzn u v hn]; norm_num
      · push_neg at hn hl
        rw [cosineSimilarity_div_eq u v hl (by push_neg; exact hn)]
        have hu := hsqrtpos u hn.1
        have hv := hsqrtpos v hn.2
        have hpos : 0 < Real.sqrt (sumMul u u) * Real.sqrt (sumMul v v) :=
          mul_pos hu hv
        have habs : |sumMul u v| ≤
            Real.sqrt (sumMul u u) * Real.sqrt (sumMul v v) := by
          have h1 : |sumMul u v| = Real.sqrt ((sumMul u v) ^ 2) :=
            (Real.sqrt_sq_eq_abs _).symm
          rw [h1, ← Real.sqrt_mul (sumMul_self_nonneg u)]
          exact Real.sqrt_le_sqrt (sumMul_sq_le u v)
        have : |sumMul u v / (Real.sqrt (sumMul u u) * Real.sqrt (sumMul v v))| ≤ 1 := by
          rw [abs_div, abs_of_pos hpos]
          exact (div_le_one hpos).mpr habs
        exact abs_le.mp this
  refine ⟨?_, hzl a b, ?_, hzn a b, fun _ => hdivisor a b, hbounds a b⟩
  · by_cases hl : a.length = b.length
    · by_cases hn : sumMul a a = 0 ∨ sumMul b b = 0
      · rw [hzn a b hn, hzn b a (Or.symm hn)]
      · have hn' : ¬ (sumMul b b = 0 ∨ sumMul a a = 0) := fun h => hn (Or.symm h)
        rw [cosineSimilarity_div_eq a b hl hn, cosineSimilarity_div_eq b a hl.symm hn',
          sumMul_comm a b, mul_comm]
    · rw [hzl a b hl, hzl b a (fun h => hl h.symm)]
  · intro ha
    apply hzn a b
    left
    rw [ha]
    rfl

/-- Witness for C7: the implications of the theorem are applied at the
concrete vectors `[1, 0]` (against the shorter `[2]`) and at `[0]` (zero
norm). -/
theorem calculateCosineSimilarity_spec_witness :
    calculateCosineSimilarity [(1 : ℝ), 0] [2] = 0 ∧
    calculateCosineSimilarity [(0 : ℝ)] [3] = 0 :=
  ⟨(calculateCosineSimilarity_spec [(1 : ℝ), 0] [2]).2.1 (by simp),
   (calculateCosineSimilarity_spec [(0 : ℝ)] [3]).2.2.2.1
     (Or.inl (by norm_num [sumMul]))⟩

/-! ### C5: the reflection engine's failure semantics -/

/-- C5: `generateReflection` is a total function (it never propagates an
exception by construction of the embedding), and whenever the pipeline fails
internally — in this embedding the fallible phase is the gather, whose bucket
reads throw on an unknown bucket — the returned value is exactly the degraded
sentinel: one placeholder insight string, no new connections, one placeholder
recommendation string, and confidence score `0`. -/
theorem generateReflection_degraded_spec (st : Store) (now : ℝ)
    (request : ReflectionRequest) (conductorId : String) :
    (∀ e : MemError,
      gatherMemoriesForReflection st now request.memoryScope = .error e →
      generateReflection st now request conductorId = degradedReflectionResult) ∧
    degradedReflectionResult.insights = ["Error generating reflection insights"] ∧
    degradedReflectionResult.newConnections = [] ∧
    degradedReflectionResult.recommendations =
      ["Unable to generate recommendations at this time"] ∧
    degradedReflectionResult.confidenceScore = 0 := by
  refine ⟨?_, rfl, rfl, rfl, rfl⟩
  intro e he
  rw [generateReflection, he]

/-- Witness for C5: requesting a reflection over the unknown bucket
`semantic_stm` of the empty store returns the degraded sentinel. -/
theorem generateReflection_degraded_spec_witness :
    generateReflection exC5Store 0 exC5Request "conductor" =
      degradedReflectionResult :=
  (generateReflection_degraded_spec exC5Store 0 exC5Request "conductor").1
    (.notFound ("Memory bucket " ++ "semantic_stm" ++ " not found")) rfl

/-! ### C6: connection discovery -/

theorem countP_filterMap_getD {α β : Type} (f : α → Option β) (p : β → Bool)
    (l : List α) :
    (l.filterMap f).countP p = l.countP (fun a => ((f a).map p).getD false) := by
  induction l with
  | nil => rfl
  | cons a l ih =>
    cases hf : f a with
    | none => simp [List.filterMap_cons, hf, List.countP_cons, ih]
    | some b => simp [List.filterMap_cons, hf, List.countP_cons, ih]

theorem mem_discoverPairs (n i j : ℕ) :
    (i, j) ∈ discoverPairs n ↔ i < j ∧ j < i + 10 ∧ j < n := by
  simp only [discoverPairs, List.mem_flatMap, List.mem_map, List.mem_filter,
    List.mem_range, List.mem_range'_1, decide_eq_true_eq, Prod.mk.injEq]
  constructor
  · rintro ⟨a, ha, b, ⟨⟨hb1, hb2⟩, hbn⟩, rfl, rfl⟩
    omega
  · rintro ⟨hij, hwin, hn⟩
    exact ⟨i, by omega, j, ⟨⟨by omega, by omega⟩, hn⟩, rfl, rfl⟩

theorem nodup_discoverPairs (n : ℕ) : (discoverPairs n).Nodup := by
  rw [discoverPairs, List.nodup_flatMap]
  constructor
  · intro i _
    refine List.Nodup.map ?_ (List.Nodup.filter _ (List.nodup_range' _ _))
    intro a b hab
    exact (Prod.mk.injEq _ _ _ _).mp hab |>.2
  · rw [List.pairwise_iff_getElem]
    intro a b ha hb hab
    simp only [Function.onFun, List.getElem_range]
    intro pr hpa hpb
    simp only [List.mem_map, List.mem_filter] at hpa hpb
    obtain ⟨x, -, hx⟩ := hpa
    obtain ⟨y, -, hy⟩ := hpb
    rw [← hx] at hy
    have hba : b = a := ((Prod.mk.injEq _ _ _ _).mp hy).1
    omega

theorem jsSplitWsAux_ne_nil (piece : Option (List Char)) (l : List Char) :
    jsSplitWsAux piece l ≠ [] := by
  induction l generalizing piece with
  | nil => simp [jsSplitWsAux]
  | cons c rest ih =>
    by_cases hw : c.isWhitespace
    · cases piece with
      | some p => simp [jsSplitWsAux, hw]
      | none => simpa [jsSplitWsAux, hw] using ih none
    · simpa [jsSplitWsAux, hw] using ih _

theorem calculateTextSimilarity_self (t : String) :
    calculateTextSimilarity t t = 1 := by
  obtain ⟨x, hx⟩ := List.exists_mem_of_ne_nil _
    (jsSplitWsAux_ne_nil (some []) (jsToLower t).data)
  have hcard : (((jsSplitWs (jsToLower t)).toFinset.card : ℚ)) ≠ 0 := by
    exact_mod_cast Finset.card_ne_zero_of_mem (List.mem_toFinset.mpr hx)
  simp only [calculateTextSimilarity, Finset.inter_self, Finset.union_self]
  exact div_self hcard

theorem countP_beq_eq_one {α : Type} [BEq α] [LawfulBEq α] {l : List α} {a : α}
    (hn : l.Nodup) (ha : a ∈ l) : l.countP (fun x => x == a) = 1 := by
  induction l with
  | nil => exact absurd ha (List.not_mem_nil a)
  | cons b t ih =>
    rw [List.countP_cons]
    rcases List.mem_cons.mp ha with rfl | hat
    · have hz : t.countP (fun x => x == a) = 0 :=
        List.countP_eq_zero.mpr (fun x hx => by
          simp only [beq_iff_eq]
          intro hxa
          exact (List.nodup_cons.mp hn).1 (hxa ▸ hx))
      simp [hz]
    · have hne : ¬ (b == a) = true := by
        simp only [beq_iff_eq]
        intro hba
        exact (List.nodup_cons.mp hn).1 (hba ▸ hat)
      simp only [hne, if_false, decide_eq_true_eq, hne]
      rw [ih (List.nodup_cons.mp hn).2 hat]
      simp [hne]

/-- C6: the discovery step emits at most 10 candidate connections, namely the
first 10 of the candidate stream; for every pair of gathered chunks visited by
the index window (each source chunk is compared against at most the next 9
chunks, `i < j < i + 10`) whose token-set Jaccard similarity exceeds `0.7` and
for which no link exists in the graph in either direction, the stream holds
exactly one candidate for that pair; and every streamed candidate is a
`semantic` link between a so-qualified windowed pair with strength equal to
the computed similarity. -/
theorem discoverMemoryConnections_spec (links : List MemoryLink)
    (ms : List MemoryChunk) (now : ℝ) :
    (discoverMemoryConnections links ms now).length ≤ 10 ∧
    discoverMemoryConnections links ms now =
      (candidateConnections links ms now).take 10 ∧
    (∀ i j : ℕ, i < j → j < i + 10 → j < ms.length →
      0.7 < calculateTextSimilarity (ms.getD i emptyChunk).text
        (ms.getD j emptyChunk).text →
      linkExistsBetween links (ms.getD i emptyChunk).id
        (ms.getD j emptyChunk).id = false →
      (candidateConnections links ms now).countP
        (fun c => c.sourceIndex == i && c.targetIndex == j) = 1) ∧
    (∀ c ∈ candidateConnections links ms now,
      c.sourceIndex < c.targetIndex ∧ c.targetIndex < c.sourceIndex + 10 ∧
      c.targetIndex < ms.length ∧
      c.strength = calculateTextSimilarity (ms.getD c.sourceIndex emptyChunk).text
        (ms.getD c.targetIndex emptyChunk).text ∧
      (0.7 : ℚ) < c.strength ∧
      linkExistsBetween links (ms.getD c.sourceIndex emptyChunk).id
        (ms.getD c.targetIndex emptyChunk).id = false ∧
      c.sourceId = (ms.getD c.sourceIndex emptyChunk).id ∧
      c.targetId = (ms.getD c.targetIndex emptyChunk).id ∧
      c.linkType = .semantic) := by
  refine ⟨?_, rfl, ?_, ?_⟩
  · rw [discoverMemoryConnections]
    exact List.length_take_le _ _
  · intro i j hij hwin hn hsim hlink
    simp only [List.getD_eq_getElem?_getD] at hsim hlink
    rw [candidateConnections, countP_filterMap_getD]
    refine Eq.trans (@List.countP_congr _ _ (fun pr => pr == (i, j)) _ ?_) ?_
    · intro pr hpr
      constructor
      · intro htrue
        by_cases hpe : pr = (i, j)
        · rw [hpe]
          simp
        · exfalso
          by_cases h1 : 0.7 < calculateTextSimilarity (ms[pr.1]?.getD emptyChunk).text
              (ms[pr.2]?.getD emptyChunk).text
          · by_cases h2 : linkExistsBetween links (ms[pr.1]?.getD emptyChunk).id
                (ms[pr.2]?.getD emptyChunk).id = true
            · simp [h1, h2] at htrue
            · simp [h1, h2] at htrue
              exact hpe (Prod.ext htrue.1 htrue.2)
          · simp [h1] at htrue
      · intro hbeq
        have hpe : pr = (i, j) := eq_of_beq hbeq
        rw [hpe]
        simp [hsim, hlink]
    · exact countP_beq_eq_one (nodup_discoverPairs ms.length)
        ((mem_discoverPairs ms.length i j).mpr ⟨hij, hwin, hn⟩)
  · intro c hc
    simp only [candidateConnections, List.mem_filterMap] at hc
    obtain ⟨pr, hpr, hF⟩ := hc
    by_cases h1 : 0.7 < calculateTextSimilarity (ms.getD pr.1 emptyChunk).text
        (ms.getD pr.2 emptyChunk).text
    · by_cases h2 : linkExistsBetween links (ms.getD pr.1 emptyChunk).id
          (ms.getD pr.2 emptyChunk).id = true
      · rw [if_pos h1, if_pos h2] at hF
        exact absurd hF (by simp)
      · rw [if_pos h1, if_neg h2, Option.some.injEq] at hF
        obtain ⟨hij, hwin, hn⟩ := (mem_discoverPairs ms.length pr.1 pr.2).mp
          (by rw [show (pr.1, pr.2) = pr from rfl]; exact hpr)
        rw [← hF]
        exact ⟨hij, hwin, hn, rfl, h1, (by simpa using h2), rfl, rfl, rfl⟩
    · rw [if_neg h1] at hF
      exact absurd hF (by simp)

/-- Witness for C6: two gathered chunks with identical (hence maximally
similar) text `"a b"` and an empty link graph yield exactly one streamed
candidate for the pair `(0, 1)`. -/
theorem discoverMemoryConnections_spec_witness :
    (candidateConnections [] exC6Mems 0).countP
      (fun c => c.sourceIndex == 0 && c.targetIndex == 1) = 1 := by
  refine (discoverMemoryConnections_spec [] exC6Mems 0).2.2.1 0 1 ?_ ?_ ?_ ?_ ?_
  · norm_num
  · norm_num
  · show 1 < exC6Mems.length
    rw [exC6Mems]
    norm_num
  · show (0.7 : ℚ) < calculateTextSimilarity (exC6Mems.getD 0 emptyChunk).text
      (exC6Mems.getD 1 emptyChunk).text
    rw [show (exC6Mems.getD 0 emptyChunk).text = "a b" from rfl,
      show (exC6Mems.getD 1 emptyChunk).text = "a b" from rfl,
      calculateTextSimilarity_self]
    norm_num
  · rfl

/-! ### Sorting and access-tracking helper lemmas -/

theorem pairwise_jsSortCmp {α : Type} (cmp : α → α → ℝ)
    (htot : ∀ a b, cmp a b ≤ 0 ∨ cmp b a ≤ 0)
    (htrans : ∀ a b c, cmp a b ≤ 0 → cmp b c ≤ 0 → cmp a c ≤ 0) (l : List α) :
    List.Pairwise (fun a b => cmp a b ≤ 0) (jsSortCmp cmp l) := by
  haveI : IsTotal α (fun a b => cmp a b ≤ 0) := ⟨htot⟩
  haveI : IsTrans α (fun a b => cmp a b ≤ 0) := ⟨htrans⟩
  exact List.sorted_insertionSort _ l

theorem perm_jsSortCmp {α : Type} (cmp : α → α → ℝ) (l : List α) :
    List.Perm (jsSortCmp cmp l) l :=
  List.perm_insertionSort _ l

theorem dbSortRel_total (a b : MemoryChunk) :
    (b.score < a.score ∨ (b.score = a.score ∧ b.lastAccessed ≤ a.lastAccessed)) ∨
    (a.score < b.score ∨ (a.score = b.score ∧ a.lastAccessed ≤ b.lastAccessed)) := by
  rcases lt_trichotomy b.score a.score with h | h | h
  · exact Or.inl (Or.inl h)
  · rcases le_total b.lastAccessed a.lastAccessed with hl | hl
    · exact Or.inl (Or.inr ⟨h, hl⟩)
    · exact Or.inr (Or.inr ⟨h.symm, hl⟩)
  · exact Or.inr (Or.inl h)

theorem dbSortRel_trans (a b c : MemoryChunk)
    (hab : b.score < a.score ∨ (b.score = a.score ∧ b.lastAccessed ≤ a.lastAccessed))
    (hbc : c.score < b.score ∨ (c.score = b.score ∧ c.lastAccessed ≤ b.lastAccessed)) :
    c.score < a.score ∨ (c.score = a.score ∧ c.lastAccessed ≤ a.lastAccessed) := by
  rcases hab with hab | ⟨hab1, hab2⟩
  · rcases hbc with hbc | ⟨hbc1, hbc2⟩
    · exact Or.inl (lt_trans hbc hab)
    · exact Or.inl (hbc1 ▸ hab)
  · rcases hbc with hbc | ⟨hbc1, hbc2⟩
    · exact Or.inl (hab1 ▸ hbc)
    · exact Or.inr ⟨hbc1.trans hab1, hbc2.trans hab2⟩

theorem pairwise_dbSortScoreRecency (l : List MemoryChunk) :
    List.Pairwise (fun a b =>
      b.score < a.score ∨ (b.score = a.score ∧ b.lastAccessed ≤ a.lastAccessed))
      (dbSortScoreRecency l) := by
  haveI : IsTotal MemoryChunk (fun a b =>
      b.score < a.score ∨ (b.score = a.score ∧ b.lastAccessed ≤ a.lastAccessed)) :=
    ⟨dbSortRel_total⟩
  haveI : IsTrans MemoryChunk (fun a b =>
      b.score < a.score ∨ (b.score = a.score ∧ b.lastAccessed ≤ a.lastAccessed)) :=
    ⟨dbSortRel_trans⟩
  exact List.sorted_insertionSort _ l

theorem perm_dbSortScoreRecency (l : List MemoryChunk) :
    List.Perm (dbSortScoreRecency l) l :=
  List.perm_insertionSort _ l

theorem touchList_ids (now : ℝ) (l : List MemoryChunk) (i : String) :
    (touchList now l i).map (fun c => c.id) = l.map (fun c => c.id) := by
  rw [touchList, List.map_map]
  apply List.map_congr_left
  intro c _
  by_cases h : c.id = i
  · simp [h, touched]
  · simp [h]

theorem foldl_touch_store (now : ℝ) (out : List MemoryChunk) (s : Store) :
    (out.foldl (fun s c => touchChunk s c.id now) s).chunks =
      out.foldl (fun l c => touchList now l c.id) s.chunks := by
  induction out generalizing s with
  | nil => rfl
  | cons x rest ih =>
    rw [List.foldl_cons, List.foldl_cons, ih]
    rfl

theorem mem_foldl_touchList_untouched (now : ℝ) (out : List MemoryChunk)
    (l : List MemoryChunk) (d : MemoryChunk) (hd : d ∈ l)
    (hno : ∀ x ∈ out, x.id ≠ d.id) :
    d ∈ out.foldl (fun l c => touchList now l c.id) l := by
  induction out generalizing l with
  | nil => exact hd
  | cons x rest ih =>
    rw [List.foldl_cons]
    refine ih _ ?_ (fun y hy => hno y (List.mem_cons_of_mem x hy))
    refine List.mem_map.mpr ⟨d, hd, ?_⟩
    rw [if_neg (fun h => hno x (List.mem_cons_self x rest) h.symm)]

theorem mem_foldl_touchList_touched (now : ℝ) (out : List MemoryChunk)
    (l : List MemoryChunk) (c : MemoryChunk) (hc : c ∈ l)
    (hnl : (l.map (fun x => x.id)).Nodup) (hmem : c ∈ out)
    (hout : (out.map (fun x => x.id)).Nodup) :
    touched now c ∈ out.foldl (fun l x => touchList now l x.id) l := by
  induction out generalizing l with
  | nil => exact absurd hmem (List.not_mem_nil c)
  | cons x rest ih =>
    rw [List.foldl_cons]
    rcases List.mem_cons.mp hmem with rfl | hcr
    · have h1 : touched now c ∈ touchList now l c.id :=
        List.mem_map.mpr ⟨c, hc, by rw [if_pos rfl]⟩
      refine mem_foldl_touchList_untouched now rest _ _ h1 ?_
      intro y hy he
      have hm : y.id ∈ List.map (fun x => x.id) rest :=
        List.mem_map_of_mem (fun x => x.id) hy
      rw [he] at hm
      exact (List.nodup_cons.mp hout).1 hm
    · have hxid : x.id ≠ c.id := by
        intro he
        have hm : c.id ∈ List.map (fun x => x.id) rest :=
          List.mem_map_of_mem (fun x => x.id) hcr
        rw [← he] at hm
        exact (List.nodup_cons.mp hout).1 hm
      have hc' : c ∈ touchList now l x.id :=
        List.mem_map.mpr ⟨c, hc, by rw [if_neg (fun h => hxid h.symm)]⟩
      have hnl' : ((touchList now l x.id).map (fun x => x.id)).Nodup := by
        rw [touchList_ids]; exact hnl
      exact ih _ hc' hnl' hcr (List.nodup_cons.mp hout).2

/-! ### C4: retrieval from a bucket -/

/-- C4: `getMemoriesFromBucket` (spec name `getChunksFromBucket`), called
without a query embedding, fails with `NotFound` for an unknown bucket name;
for a registered bucket it succeeds, every returned chunk is a stored row of
that bucket with score at least `minScore`, the returned order is
non-increasing in score with ties non-increasing in `lastAccessed`, and (for a
store with unique row ids) every returned chunk's row is left with
`lastAccessed = now` and its `accessCount` incremented by 1. -/
theorem getMemoriesFromBucket_spec (st : Store) (now : ℝ) (bucketName : String)
    (limit : ℕ) (minScore : ℝ) :
    (findBucket st bucketName = none →
      getMemoriesFromBucket st now bucketName none limit minScore =
        .error (.notFound ("Memory bucket " ++ bucketName ++ " not found"))) ∧
    (∀ bucket, findBucket st bucketName = some bucket →
      ∃ out st',
        getMemoriesFromBucket st now bucketName none limit minScore = .ok (out, st') ∧
        (∀ c ∈ out, minScore ≤ c.score ∧ c.bucketId = bucket.id ∧ c ∈ st.chunks) ∧
        out.Pairwise (fun a b => b.score ≤ a.score ∧
          (a.score = b.score → b.lastAccessed ≤ a.lastAccessed)) ∧
        ((st.chunks.map (fun c => c.id)).Nodup →
          ∀ c ∈ out, ∃ c' ∈ st'.chunks, c'.id = c.id ∧ c'.lastAccessed = now ∧
            c'.accessCount = c.accessCount + 1)) := by
  constructor
  · intro hnone
    rw [getMemoriesFromBucket, hnone]
  · intro bucket hsome
    refine ⟨(dbSortScoreRecency (st.chunks.filter
        (fun c => decide (c.bucketId = bucket.id ∧ minScore ≤ c.score)))).take limit,
      ((dbSortScoreRecency (st.chunks.filter
        (fun c => decide (c.bucketId = bucket.id ∧ minScore ≤ c.score)))).take
          limit).foldl (fun s c => touchChunk s c.id now) st,
      by rw [getMemoriesFromBucket, hsome], ?_, ?_, ?_⟩
    · intro c hc
      have hfil : c ∈ st.chunks.filter
          (fun c => decide (c.bucketId = bucket.id ∧ minScore ≤ c.score)) :=
        (perm_dbSortScoreRecency _).mem_iff.mp (List.mem_of_mem_take hc)
      obtain ⟨hmem, hdec⟩ := List.mem_filter.mp hfil
      obtain ⟨hb, hs⟩ := of_decide_eq_true hdec
      exact ⟨hs, hb, hmem⟩
    · refine List.Pairwise.imp ?_
        (List.Pairwise.sublist (List.take_sublist _ _) (pairwise_dbSortScoreRecency _))
      intro a b hab
      rcases hab with hab | ⟨hab1, hab2⟩
      · exact ⟨le_of_lt hab, fun he => absurd hab (by rw [he]; exact lt_irrefl _)⟩
      · exact ⟨le_of_eq hab1, fun _ => hab2⟩
    · intro hnd c hc
      have hndfil : ((st.chunks.filter
          (fun c => decide (c.bucketId = bucket.id ∧ minScore ≤ c.score))).map
            (fun c => c.id)).Nodup :=
        List.Nodup.sublist ((List.filter_sublist _).map _) hnd
      have hndsort : ((dbSortScoreRecency (st.chunks.filter
          (fun c => decide (c.bucketId = bucket.id ∧ minScore ≤ c.score)))).map
            (fun c => c.id)).Nodup :=
        (((perm_dbSortScoreRecency _).map _).nodup_iff).mpr hndfil
      have hndout : (((dbSortScoreRecency (st.chunks.filter
          (fun c => decide (c.bucketId = bucket.id ∧ minScore ≤ c.score)))).take
            limit).map (fun c => c.id)).Nodup :=
        List.Nodup.sublist ((List.take_sublist _ _).map _) hndsort
      have hcmem : c ∈ st.chunks :=
        (List.filter_sublist _).mem
          ((perm_dbSortScoreRecency _).mem_iff.mp (List.mem_of_mem_take hc))
      refine ⟨touched now c, ?_, rfl, rfl, rfl⟩
      rw [foldl_touch_store]
      exact mem_foldl_touchList_touched now _ _ c hcmem hnd hc hndout

/-- Witness for C4: the unknown name `"nope"` is rejected on the concrete
store `exC4Store`, and retrieval from its registered bucket `episodic_stm`
succeeds. -/
theorem getMemoriesFromBucket_spec_witness :
    getMemoriesFromBucket exC4Store 0 "nope" none 10 0.1 =
      .error (.notFound ("Memory bucket " ++ "nope" ++ " not found")) ∧
    ∃ out st',
      getMemoriesFromBucket exC4Store 7 "episodic_stm" none 10 0.1 =
        .ok (out, st') ∧
      (∀ c ∈ out, (0.1 : ℝ) ≤ c.score ∧ c.bucketId = exC4Bucket.id ∧
        c ∈ exC4Store.chunks) := by
  constructor
  · exact (getMemoriesFromBucket_spec exC4Store 0 "nope" 10 0.1).1 rfl
  · obtain ⟨out, st', hok, hmem, -, -⟩ :=
      (getMemoriesFromBucket_spec exC4Store 7 "episodic_stm" 10 0.1).2 exC4Bucket rfl
    exact ⟨out, st', hok, hmem⟩

/-! ### C3: the reflection engine's gather phase -/

theorem getMemoriesFromBucket_length_le (st : Store) (now : ℝ) (b : String)
    (q : Option (List ℝ)) (limit : ℕ) (minScore : ℝ) (res : List MemoryChunk)
    (st' : Store)
    (h : getMemoriesFromBucket st now b q limit minScore = .ok (res, st')) :
    res.length ≤ limit := by
  rw [getMemoriesFromBucket] at h
  cases hfb : findBucket st b with
  | none => rw [hfb] at h; exact absurd h (by simp)
  | some bucket =>
    cases q with
    | none =>
      simp only [hfb, Except.ok.injEq, Prod.mk.injEq] at h
      rw [← h.1]
      exact List.length_take_le _ _
    | some qe =>
      simp only [hfb, Except.ok.injEq, Prod.mk.injEq] at h
      by_cases hq : 0 < qe.length
      · rw [← h.1, if_pos hq,
          (perm_jsSortCmp (fun a b : MemoryChunk =>
            jsOrReal b.similarity 0 - jsOrReal a.similarity 0) _).length_eq,
          List.length_map]
        exact List.length_take_le _ _
      · rw [← h.1, if_neg hq]
        exact List.length_take_le _ _

theorem collectFromBuckets_parts (now : ℝ) (q : Option (List ℝ)) (limit : ℕ)
    (minScore : ℝ) :
    ∀ (bs : List String) (st : Store) (allRes : List MemoryChunk) (st' : Store),
      collectFromBuckets now q limit minScore bs st = .ok (allRes, st') →
      ∃ parts : List (List MemoryChunk), parts.length = bs.length ∧
        (∀ p ∈ parts, p.length ≤ limit) ∧ allRes = parts.flatten := by
  intro bs
  induction bs with
  | nil =>
    intro st allRes st' h
    rw [collectFromBuckets] at h
    simp only [Except.ok.injEq, Prod.mk.injEq] at h
    exact ⟨[], rfl, by simp, by rw [← h.1]; rfl⟩
  | cons b rest ih =>
    intro st allRes st' h
    rw [collectFromBuckets] at h
    cases hg : getMemoriesFromBucket st now b q limit minScore with
    | error e => rw [hg] at h; exact absurd h (by simp)
    | ok p =>
      obtain ⟨res, st1⟩ := p
      simp only [hg] at h
      cases hr : collectFromBuckets now q limit minScore rest st1 with
      | error e => rw [hr] at h; exact absurd h (by simp)
      | ok pr =>
        obtain ⟨restRes, st2⟩ := pr
        simp only [hr, Except.ok.injEq, Prod.mk.injEq] at h
        obtain ⟨h1, h2⟩ := h
        obtain ⟨parts, hp1, hp2, hp3⟩ := ih st1 restRes st2 hr
        refine ⟨res :: parts, by simp [hp1], ?_, ?_⟩
        · intro p hp
          rcases List.mem_cons.mp hp with rfl | hp
          · exact getMemoriesFromBucket_length_le st now b q limit minScore p st1 hg
          · exact hp2 p hp
        · rw [← h1, hp3]
          rfl

theorem gatherCmp_le_zero_iff (now : ℝ) (a b : MemoryChunk) :
    gatherCmp now a b ≤ 0 ↔
      0.7 * b.score + 0.3 * b.lastAccessed ≤
        0.7 * a.score + 0.3 * a.lastAccessed := by
  rw [gatherCmp]
  constructor <;> intro h <;> linarith

/-- C3: a successful gather pulls at most 50 chunks from each bucket in
scope (one sublist per bucket), merges them, sorts the merged list with the
gather comparator — whose induced order is exactly descending in the blended
key `0.7 * score + 0.3 * lastAccessed`, a key monotone in `lastAccessed`, so
a more recently accessed chunk never ranks below an otherwise equal one — and
truncates to the top 100. -/
theorem gatherMemoriesForReflection_spec (st : Store) (now : ℝ)
    (scope : List String) (out : List MemoryChunk) (st' : Store)
    (h : gatherMemoriesForReflection st now scope = .ok (out, st')) :
    out.length ≤ 100 ∧
    List.Pairwise (fun a b => 0.7 * b.score + 0.3 * b.lastAccessed ≤
      0.7 * a.score + 0.3 * a.lastAccessed) out ∧
    (∀ a b : MemoryChunk, a.score = b.score → a.lastAccessed ≤ b.lastAccessed →
      0.7 * a.score + 0.3 * a.lastAccessed ≤
        0.7 * b.score + 0.3 * b.lastAccessed) ∧
    ∃ parts : List (List MemoryChunk), parts.length = scope.length ∧
      (∀ p ∈ parts, p.length ≤ 50) ∧
      out = (jsSortCmp (gatherCmp now) parts.flatten).take 100 := by
  rw [gatherMemoriesForReflection] at h
  cases hc : MemoryService.collectFromBuckets now none 50 0.1 scope st with
  | error e => rw [hc] at h; exact absurd h (by simp)
  | ok p =>
    obtain ⟨allMem, st1⟩ := p
    simp only [hc, Except.ok.injEq, Prod.mk.injEq] at h
    obtain ⟨h1, h2⟩ := h
    have hsorted := pairwise_jsSortCmp (gatherCmp now)
      (fun a b => by
        rcases le_total (0.7 * b.score + 0.3 * b.lastAccessed)
            (0.7 * a.score + 0.3 * a.lastAccessed) with hh | hh
        · exact Or.inl ((gatherCmp_le_zero_iff now a b).mpr hh)
        · exact Or.inr ((gatherCmp_le_zero_iff now b a).mpr hh))
      (fun a b c hab hbc => (gatherCmp_le_zero_iff now a c).mpr
        (le_trans ((gatherCmp_le_zero_iff now b c).mp hbc)
          ((gatherCmp_le_zero_iff now a b).mp hab)))
      allMem
    refine ⟨?_, ?_, ?_, ?_⟩
    · rw [← h1]
      exact List.length_take_le _ _
    · rw [← h1]
      exact List.Pairwise.imp (fun hab => (gatherCmp_le_zero_iff now _ _).mp hab)
        (List.Pairwise.sublist (List.take_sublist _ _) hsorted)
    · intro a b hs hl
      rw [hs]
      linarith
    · obtain ⟨parts, hp1, hp2, hp3⟩ :=
        collectFromBuckets_parts now none 50 0.1 scope st allMem st1 hc
      exact ⟨parts, hp1, hp2, by rw [← h1, hp3]⟩

/-- Witness for C3: gathering from the registered (empty) bucket of
`exC3Store` succeeds, and the gathered list decomposes into one per-bucket
part of at most 50 chunks. -/
theorem gatherMemoriesForReflection_spec_witness :
    gatherMemoriesForReflection exC3Store 5 ["semantic_ltm"] =
      .ok ([], exC3Store) ∧
    ∃ parts : List (List MemoryChunk),
      parts.length = (["semantic_ltm"] : List String).length ∧
      (∀ p ∈ parts, p.length ≤ 50) ∧
      ([] : List MemoryChunk) = (jsSortCmp (gatherCmp 5) parts.flatten).take 100 :=
  ⟨rfl, (gatherMemoriesForReflection_spec exC3Store 5 ["semantic_ltm"] []
    exC3Store rfl).2.2.2⟩

/-! ### C10: the cross-bucket search ranking -/

theorem cos_query_orthogonal :
    calculateCosineSimilarity [(1 : ℝ), 0] [0, 1] = 0 := by
  norm_num [calculateCosineSimilarity, sumMul, Real.sqrt_one]

theorem cos_query_equal :
    calculateCosineSimilarity [(1 : ℝ), 0] [1, 0] = 1 := by
  norm_num [calculateCosineSimilarity, sumMul, Real.sqrt_one]

theorem jsOrReal_exC10ASim_zero : jsOrReal exC10ASim.similarity 0 = 0 := by
  rw [show exC10ASim.similarity = some 0 from rfl, jsOrReal]
  exact if_pos rfl

theorem jsOrReal_exC10BSim_zero : jsOrReal exC10BSim.similarity 0 = 1 := by
  rw [show exC10BSim.similarity = some 1 from rfl, jsOrReal]
  exact if_neg (by norm_num)

theorem jsOrReal_exC10ASim_score : jsOrReal exC10ASim.similarity exC10ASim.score = 2 := by
  rw [show exC10ASim.similarity = some 0 from rfl, jsOrReal, if_pos rfl]
  norm_num [exC10ASim, exC10A, emptyChunk]

theorem jsOrReal_exC10BSim_score : jsOrReal exC10BSim.similarity exC10BSim.score = 1 := by
  rw [show exC10BSim.similarity = some 1 from rfl, jsOrReal]
  exact if_neg (by norm_num)

/-- C10: the cross-bucket search ranks its merged results in non-increasing
order of the key `similarity || score` — the attached cosine similarity when
it is nonzero, falling back to the chunk's raw reinforcement score when the
similarity is `0` or absent — so similarity values and raw scores are compared
on a single scale; concretely, on `exC10Store` a chunk with similarity `0` and
score `2` ranks above a chunk with similarity `1 < 2`. -/
theorem searchMemories_spec :
    (∀ (st : Store) (now : ℝ) (q : List ℝ) (bs : Option (List String)) (lim : ℕ)
      (out : List MemoryChunk) (st' : Store),
      searchMemories st now q bs lim = .ok (out, st') →
      List.Pairwise (fun a b => jsOrReal b.similarity b.score ≤
        jsOrReal a.similarity a.score) out) ∧
    (∃ st' : Store,
      searchMemories exC10Store 0 [1, 0] (some ["episodic_stm"]) 2 =
        .ok ([exC10ASim, exC10BSim], st')) ∧
    exC10ASim.similarity = some 0 ∧ exC10ASim.score = 2 ∧
    exC10BSim.similarity = some 1 ∧ exC10BSim.score = 1 ∧
    jsOrReal exC10BSim.similarity exC10BSim.score <
      jsOrReal exC10ASim.similarity exC10ASim.score := by
  have hsortedPart : ∀ (st : Store) (now : ℝ) (q : List ℝ) (bs : Option (List String))
      (lim : ℕ) (out : List MemoryChunk) (st' : Store),
      searchMemories st now q bs lim = .ok (out, st') →
      List.Pairwise (fun a b => jsOrReal b.similarity b.score ≤
        jsOrReal a.similarity a.score) out := by
    intro st now q bs lim out st' h
    have hdef : searchMemories st now q bs lim =
        (match MemoryService.collectFromBuckets now (some q)
            ((lim + (bs.getD MEMORY_BUCKET_NAMES).length - 1) /
              (bs.getD MEMORY_BUCKET_NAMES).length) 0.1
            (bs.getD MEMORY_BUCKET_NAMES) st with
          | .error e => .error e
          | .ok (allResults, st') =>
            .ok ((jsSortCmp (fun a b =>
              jsOrReal b.similarity b.score - jsOrReal a.similarity a.score)
                allResults).take lim, st')) := rfl
    rw [hdef] at h
    cases hc : MemoryService.collectFromBuckets now (some q)
        ((lim + (bs.getD MEMORY_BUCKET_NAMES).length - 1) /
          (bs.getD MEMORY_BUCKET_NAMES).length) 0.1
        (bs.getD MEMORY_BUCKET_NAMES) st with
    | error e => rw [hc] at h; exact absurd h (by simp)
    | ok p =>
      obtain ⟨allRes, st1⟩ := p
      simp only [hc, Except.ok.injEq, Prod.mk.injEq] at h
      obtain ⟨h1, -⟩ := h
      rw [← h1]
      have hsorted := pairwise_jsSortCmp (fun a b : MemoryChunk =>
          jsOrReal b.similarity b.score - jsOrReal a.similarity a.score)
        (fun a b => by
          rcases le_total (jsOrReal b.similarity b.score)
              (jsOrReal a.similarity a.score) with hh | hh
          · exact Or.inl (by simpa using sub_nonpos.mpr hh)
          · exact Or.inr (by simpa using sub_nonpos.mpr hh))
        (fun a b c hab hbc => by
          have hab' := sub_nonpos.mp hab
          have hbc' := sub_nonpos.mp hbc
          exact sub_nonpos.mpr (le_trans hbc' hab'))
        allRes
      exact List.Pairwise.imp (fun hab => sub_nonpos.mp hab)
        (List.Pairwise.sublist (List.take_sublist _ _) hsorted)
  refine ⟨hsortedPart, ?_, rfl, by norm_num [exC10ASim, exC10A, emptyChunk], rfl,
    by norm_num [exC10BSim, exC10B, emptyChunk], ?_⟩
  · -- the concrete search evaluation
    have hdA : decide (exC10A.bucketId = exC10Bucket.id ∧ (0.1 : ℝ) ≤ exC10A.score) = true :=
      decide_eq_true ⟨rfl, by norm_num [exC10A, emptyChunk]⟩
    have hdB : decide (exC10B.bucketId = exC10Bucket.id ∧ (0.1 : ℝ) ≤ exC10B.score) = true :=
      decide_eq_true ⟨rfl, by norm_num [exC10B, emptyChunk]⟩
    have hfilter : exC10Store.chunks.filter
        (fun c => decide (c.bucketId = exC10Bucket.id ∧ (0.1 : ℝ) ≤ c.score)) =
        [exC10A, exC10B] := by
      rw [show exC10Store.chunks = [exC10A, exC10B] from rfl,
        @List.filter_cons_of_pos _
          (fun c => decide (c.bucketId = exC10Bucket.id ∧ (0.1 : ℝ) ≤ c.score))
          exC10A [exC10B] hdA,
        @List.filter_cons_of_pos _
          (fun c => decide (c.bucketId = exC10Bucket.id ∧ (0.1 : ℝ) ≤ c.score))
          exC10B [] hdB,
        List.filter_nil]
    have hdb : dbSortScoreRecency [exC10A, exC10B] = [exC10A, exC10B] := by
      rw [dbSortScoreRecency]
      simp only [List.insertionSort, List.orderedInsert]
      rw [if_pos (Or.inl (show exC10B.score < exC10A.score by
        norm_num [exC10A, exC10B, emptyChunk]))]
    have hmap : ([exC10A, exC10B] : List MemoryChunk).map
        (attachSimilarity [(1 : ℝ), 0]) = [exC10ASim, exC10BSim] := by
      simp only [List.map_cons, List.map_nil, attachSimilarity]
      rw [show calculateCosineSimilarity [(1 : ℝ), 0] exC10A.embedding = 0 from
          cos_query_orthogonal,
        show calculateCosineSimilarity [(1 : ℝ), 0] exC10B.embedding = 1 from
          cos_query_equal]
      rfl
    have hsortsim : jsSortCmp (fun a b : MemoryChunk =>
        jsOrReal b.similarity 0 - jsOrReal a.similarity 0)
        [exC10ASim, exC10BSim] = [exC10BSim, exC10ASim] := by
      rw [jsSortCmp]
      simp only [List.insertionSort, List.orderedInsert]
      rw [if_neg (by
        rw [jsOrReal_exC10BSim_zero, jsOrReal_exC10ASim_zero]
        norm_num)]
    have hbucket : getMemoriesFromBucket exC10Store 0 "episodic_stm"
        (some [(1 : ℝ), 0]) 2 (0.1 : ℝ) =
        .ok ([exC10BSim, exC10ASim],
          ([exC10BSim, exC10ASim] : List MemoryChunk).foldl
            (fun s c => touchChunk s c.id 0) exC10Store) := by
      have hraw : getMemoriesFromBucket exC10Store 0 "episodic_stm"
          (some [(1 : ℝ), 0]) 2 (0.1 : ℝ) =
          .ok (jsSortCmp (fun a b : MemoryChunk =>
              jsOrReal b.similarity 0 - jsOrReal a.similarity 0)
              (((dbSortScoreRecency (exC10Store.chunks.filter
                (fun c => decide (c.bucketId = exC10Bucket.id ∧
                  (0.1 : ℝ) ≤ c.score)))).take 2).map
                (attachSimilarity [(1 : ℝ), 0])),
            (jsSortCmp (fun a b : MemoryChunk =>
              jsOrReal b.similarity 0 - jsOrReal a.similarity 0)
              (((dbSortScoreRecency (exC10Store.chunks.filter
                (fun c => decide (c.bucketId = exC10Bucket.id ∧
                  (0.1 : ℝ) ≤ c.score)))).take 2).map
                (attachSimilarity [(1 : ℝ), 0]))).foldl
              (fun s c => touchChunk s c.id 0) exC10Store) := rfl
      rw [hraw, hfilter, hdb,
        show ([exC10A, exC10B] : List MemoryChunk).take 2 = [exC10A, exC10B] from rfl,
        hmap, hsortsim]
    have hcollect : MemoryService.collectFromBuckets 0 (some [(1 : ℝ), 0]) 2
        (0.1 : ℝ) ["episodic_stm"] exC10Store =
        .ok ([exC10BSim, exC10ASim],
          ([exC10BSim, exC10ASim] : List MemoryChunk).foldl
            (fun s c => touchChunk s c.id 0) exC10Store) := by
      rw [collectFromBuckets]
      simp only [hbucket]
      rw [collectFromBuckets]
      rfl
    have hsortfinal : jsSortCmp (fun a b : MemoryChunk =>
        jsOrReal b.similarity b.score - jsOrReal a.similarity a.score)
        [exC10BSim, exC10ASim] = [exC10ASim, exC10BSim] := by
      rw [jsSortCmp]
      simp only [List.insertionSort, List.orderedInsert]
      rw [if_neg (by
        rw [jsOrReal_exC10ASim_score, jsOrReal_exC10BSim_score]
        norm_num)]
    refine ⟨([exC10BSim, exC10ASim] : List MemoryChunk).foldl
      (fun s c => touchChunk s c.id 0) exC10Store, ?_⟩
    have hdef : searchMemories exC10Store 0 [(1 : ℝ), 0] (some ["episodic_stm"]) 2 =
        (match MemoryService.collectFromBuckets 0 (some [(1 : ℝ), 0]) 2 (0.1 : ℝ)
            ["episodic_stm"] exC10Store with
          | .error e => .error e
          | .ok (allResults, st') =>
            .ok ((jsSortCmp (fun a b =>
              jsOrReal b.similarity b.score - jsOrReal a.similarity a.score)
                allResults).take 2, st')) := rfl
    rw [hdef, hcollect]
    show Except.ok ((jsSortCmp (fun a b : MemoryChunk =>
      jsOrReal b.similarity b.score - jsOrReal a.similarity a.score)
        [exC10BSim, exC10ASim]).take 2,
      ([exC10BSim, exC10ASim] : List MemoryChunk).foldl
        (fun s c => touchChunk s c.id 0) exC10Store) = _
    rw [hsortfinal]
    rfl
  · rw [jsOrReal_exC10ASim_score, jsOrReal_exC10BSim_score]
    norm_num

/-- Witness for C10: the sortedness statement of the theorem is applied at
the concrete search of the theorem's own exhibit. -/
theorem searchMemories_spec_witness :
    List.Pairwise (fun a b => jsOrReal b.similarity b.score ≤
      jsOrReal a.similarity a.score) [exC10ASim, exC10BSim] := by
  obtain ⟨st', hok⟩ := searchMemories_spec.2.1
  exact searchMemories_spec.1 exC10Store 0 [1, 0] (some ["episodic_stm"]) 2 _ st' hok

end SylAgent
